import Mathlib

/-!
Shallow embedding of the weather-forecast caching core of
`src/lecture-6/kadai.py`: the JSON normalizer `pick_daily_weather_and_temp`,
the SQLite-backed store (`save_forecasts`, `load_forecasts`,
`get_report_history`, `latest_report_dt`), the freshness check (`is_fresh`,
`parse_iso_dt`, `fmt_date`) and the orchestrator `fetch_save_and_show`.

Python values decoded from JSON are modelled by the `Json` inductive
(integer numerics; the JMA API payloads carry temperatures as strings).
Fallible Python operations are modelled in `Except PyErr`; Python
`try/except` blocks become explicit `match` on the `Except` value.  SQLite
tables become Lean lists of row structures; the library behaviours relied
on (TEXT affinity, `INSERT OR IGNORE` with the UNIQUE constraint,
`ORDER BY`/`DISTINCT`/`LIMIT`, transaction rollback of `with conn`) are
modelled where used, each noted in a doc comment.
-/

/-- JSON values as decoded by Python's `json` module.  Number literals are
modelled as integers, which covers every numeric field the JMA payloads
carry (temperatures arrive as strings anyway). -/
inductive Json where
  | null
  | bool (b : Bool)
  | num (n : Int)
  | str (s : String)
  | arr (xs : List Json)
  | obj (kvs : List (String × Json))

/-- Python exception classes distinguished by the embedding. -/
inductive PyErr where
  | typeError
  | keyError
  | attributeError
  | valueError
  | indexError
  | interfaceError
  | integrityError
  | storageError
deriving DecidableEq

/-- Python `len(x)`: defined for sized values (`str`, `list`, `dict`),
raises `TypeError` otherwise.  String length counts code points, as Python
does. -/
def pyLen : Json → Except PyErr Nat
  | .str s => .ok s.data.length
  | .arr xs => .ok xs.length
  | .obj kvs => .ok kvs.length
  | _ => .error .typeError

/-- Python `x[i]` for a non-negative integer index: list indexing, string
indexing (yielding a one-character string), `KeyError` on a dict (JSON
object keys are strings, so an integer key is never present), `TypeError`
otherwise. -/
def pySubNat (v : Json) (i : Nat) : Except PyErr Json :=
  match v with
  | .arr xs =>
      match xs[i]? with
      | some x => .ok x
      | none => .error .indexError
  | .str s =>
      match s.data[i]? with
      | some c => .ok (.str (String.mk [c]))
      | none => .error .indexError
  | .obj _ => .error .keyError
  | _ => .error .typeError

/-- First binding of a key in an association list.  `json.loads` produces
dicts with distinct keys, so first-match lookup is Python dict lookup. -/
def lookupKey (kvs : List (String × Json)) (k : String) : Option Json :=
  match kvs.find? (fun p => p.1 == k) with
  | some p => some p.2
  | none => none

/-- Python `x[k]` for a string key: dict lookup (`KeyError` when absent),
`TypeError` on any non-dict value. -/
def pySubKey (v : Json) (k : String) : Except PyErr Json :=
  match v with
  | .obj kvs =>
      match lookupKey kvs k with
      | some x => .ok x
      | none => .error .keyError
  | _ => .error .typeError

/-- Python truthiness of a JSON-decoded value. -/
def pyTruthy : Json → Bool
  | .null => false
  | .bool b => b
  | .num n => n != 0
  | .str s => s != ""
  | .arr xs => !xs.isEmpty
  | .obj kvs => !kvs.isEmpty

/-- Digit value of a character, if it is an ASCII digit. -/
def digitVal (c : Char) : Option Nat :=
  if c.isDigit then some (c.toNat - 48) else none

/-- Reads a non-empty run of ASCII digits as a natural number. -/
def digitsToNat : List Char → Option Nat
  | [] => none
  | cs => cs.foldlM (fun acc c => (digitVal c).map (fun d => acc * 10 + d)) 0

/-- Python `int(s)` on a string: strips surrounding whitespace, accepts an
optional single sign followed by digits.  (Digit-grouping underscores and
non-ASCII digits, which Python also accepts, are not modelled; the JMA
payloads never contain them.) -/
def pyIntOfStr (s : String) : Option Int :=
  match (s.data.dropWhile Char.isWhitespace).reverse.dropWhile Char.isWhitespace |>.reverse with
  | '+' :: cs => (digitsToNat cs).map (fun n => (n : Int))
  | '-' :: cs => (digitsToNat cs).map (fun n => -(n : Int))
  | cs => (digitsToNat cs).map (fun n => (n : Int))

/-- Python `int(x)`: identity on ints, 0/1 on bools, string parsing with
`ValueError` on failure, `TypeError` on other values. -/
def pyIntOf : Json → Except PyErr Int
  | .bool b => .ok (if b then 1 else 0)
  | .num n => .ok n
  | .str s =>
      match pyIntOfStr s with
      | some n => .ok n
      | none => .error .valueError
  | _ => .error .typeError

/-- Gregorian leap year. -/
def isLeap (y : Nat) : Bool := (y % 4 = 0 && y % 100 != 0) || y % 400 = 0

/-- Days in a month of the proleptic Gregorian calendar. -/
def daysInMonth (y m : Nat) : Nat :=
  if m = 2 then (if isLeap y then 29 else 28)
  else if m = 4 ∨ m = 6 ∨ m = 9 ∨ m = 11 then 30 else 31

/-- Result of Python's `datetime.fromisoformat`: calendar fields plus an
optional fixed timezone offset in minutes. -/
structure PyDateTime where
  year : Nat
  month : Nat
  day : Nat
  hour : Nat
  minute : Nat
  second : Nat
  tzOffMin : Option Int
deriving DecidableEq

/-- Two ASCII digits as a number. -/
def d2 (a b : Char) : Option Nat := do
  let x ← digitVal a
  let y ← digitVal b
  pure (x * 10 + y)

/-- Four ASCII digits as a number. -/
def d4 (a b c d : Char) : Option Nat := do
  let x ← d2 a b
  let y ← d2 c d
  pure (x * 100 + y)

/-- Timezone suffix `±HH:MM` (or nothing) of an ISO-8601 timestamp. -/
def parseTzChars : List Char → Option (Option Int)
  | [] => some none
  | [sg, h1, h2, ':', m1, m2] =>
      if sg = '+' ∨ sg = '-' then do
        let h ← d2 h1 h2
        let m ← d2 m1 m2
        if h ≤ 23 ∧ m ≤ 59 then
          let off : Int := h * 60 + m
          some (some (if sg = '-' then -off else off))
        else none
      else none
  | _ => none

/-- Time-of-day part `HH:MM[:SS][±HH:MM]` of an ISO-8601 timestamp. -/
def parseHMS : List Char → Option (Nat × Nat × Nat × Option Int)
  | h1 :: h2 :: ':' :: n1 :: n2 :: rest => do
      let h ← d2 h1 h2
      let n ← d2 n1 n2
      if h ≤ 23 ∧ n ≤ 59 then
        match rest with
        | ':' :: s1 :: s2 :: rest2 => do
            let s ← d2 s1 s2
            if s ≤ 59 then do
              let tz ← parseTzChars rest2
              pure (h, n, s, tz)
            else none
        | _ => do
            let tz ← parseTzChars rest
            pure (h, n, 0, tz)
      else none
  | _ => none

/-- Model of `datetime.fromisoformat`, restricted to the shapes this
application ever feeds it — `YYYY-MM-DD`, optionally followed by a one
character separator (`T` or space) and `HH:MM[:SS]` with an optional
`±HH:MM` offset; these are exactly the `isoformat` outputs the JMA API
and `datetime.isoformat` emit.  Fractional seconds, basic-format strings
and other inputs are treated as unparseable. -/
def fromisoformat (s : String) : Option PyDateTime :=
  match s.data with
  | y1 :: y2 :: y3 :: y4 :: '-' :: m1 :: m2 :: '-' :: e1 :: e2 :: rest => do
      let y ← d4 y1 y2 y3 y4
      let mo ← d2 m1 m2
      let dy ← d2 e1 e2
      if 1 ≤ y ∧ 1 ≤ mo ∧ mo ≤ 12 ∧ 1 ≤ dy ∧ dy ≤ daysInMonth y mo then
        match rest with
        | [] => pure ⟨y, mo, dy, 0, 0, 0, none⟩
        | sep :: rest2 =>
            if sep = 'T' ∨ sep = ' ' then do
              let (h, n, sec, tz) ← parseHMS rest2
              pure ⟨y, mo, dy, h, n, sec, tz⟩
            else none
      else none
  | _ => none

/-- ASCII digit character for a digit value. -/
def dChar : Nat → Char
  | 0 => '0'
  | 1 => '1'
  | 2 => '2'
  | 3 => '3'
  | 4 => '4'
  | 5 => '5'
  | 6 => '6'
  | 7 => '7'
  | 8 => '8'
  | _ => '9'

/-- Two-digit zero-padded rendering. -/
def pad2chars (n : Nat) : List Char := [dChar (n / 10 % 10), dChar (n % 10)]

/-- Four-digit zero-padded rendering. -/
def pad4chars (n : Nat) : List Char :=
  [dChar (n / 1000 % 10), dChar (n / 100 % 10), dChar (n / 10 % 10), dChar (n % 10)]

/-- `dt.strftime("%Y-%m-%d")` for the 4-digit years `fromisoformat`
produces. -/
def fmtYmd (dt : PyDateTime) : String :=
  String.mk (pad4chars dt.year ++ '-' :: pad2chars dt.month ++ '-' :: pad2chars dt.day)

/-- Result of `fmt_date`: a string (the usual case), or a list when the
argument was a list — Python's `iso[:10]` slices lists as happily as
strings, and the resulting list only explodes later, as an unhashable
dict key. -/
inductive FmtOut where
  | fstr (s : String)
  | flist (xs : List Json)

/-- `fmt_date` (kadai.py lines 63-68): try `fromisoformat` and format the
date; on any exception fall back to `iso[:10]`.  A string argument always
yields a string (parse failures slice the string); a list argument reaches
the slice in the `except` branch and yields a list; any other argument
raises `TypeError` at the slice. -/
def fmt_date : Json → Except PyErr FmtOut
  | .str s =>
      .ok (.fstr (match fromisoformat s with
        | some dt => fmtYmd dt
        | none => String.mk (s.data.take 10)))
  | .arr xs => .ok (.flist (xs.take 10))
  | _ => .error .typeError

/-- `parse_iso_dt` (kadai.py lines 71-75): `fromisoformat`, `None` on
failure. -/
def parse_iso_dt (s : String) : Option PyDateTime := fromisoformat s

/-- Lexicographic (code point) comparison of character lists.  This is both
Python's string comparison and SQLite's BINARY collation (UTF-8 byte order
agrees with code point order). -/
def charListLe : List Char → List Char → Bool
  | [], _ => true
  | _ :: _, [] => false
  | a :: as, b :: bs => if a < b then true else if b < a then false else charListLe as bs

/-- String order used by Python `sorted` and SQLite `ORDER BY`/`MAX`. -/
def strLe (a b : String) : Bool := charListLe a.data b.data

/-- Strict version of `strLe`. -/
def strLt (a b : String) : Bool := strLe a b && !strLe b a

/-- Insertion step of insertion sort. -/
def insertLe {α : Type} (le : α → α → Bool) (x : α) : List α → List α
  | [] => [x]
  | y :: ys => if le x y then x :: y :: ys else y :: insertLe le x ys

/-- Insertion sort; models Python `sorted` and SQLite `ORDER BY` for the
total orders used here (ties never arise where order matters). -/
def isortBy {α : Type} (le : α → α → Bool) : List α → List α
  | [] => []
  | x :: xs => insertLe le x (isortBy le xs)

/-- Temperature cell of a finalized daily record: an integer or the
sentinel string `"-"`. -/
inductive TempVal where
  | sent
  | val (t : Int)
deriving DecidableEq

/-- A finalized record of `pick_daily_weather_and_temp` output — the dict
`{"date": ..., "weather": ..., "min": int|"-", "max": int|"-"}`.  The
weather field is whatever value the payload carried (a `Json`), defaulting
to the string `"-"`. -/
structure DailyRecord where
  date : String
  weather : Json
  min : TempVal
  max : TempVal

/-- A partially-filled per-date record inside the normalizer's `result`
dict: `{"date": d, "weather": "-", "min": None, "max": None}`. -/
structure RawRec where
  date : String
  weather : Json
  min : Option Int
  max : Option Int

/-- The normalizer's `result` dict: insertion-ordered association list
keyed by date string. -/
abbrev RMap := List (String × RawRec)

/-- Keys of the `result` dict, in insertion order. -/
def rkeys (m : RMap) : List String := m.map Prod.fst

/-- `result.setdefault(d, {"date": d, "weather": "-", "min": None,
"max": None})`. -/
def rsetdefault (m : RMap) (k : String) : RMap :=
  if (rkeys m).contains k then m else m ++ [(k, ⟨k, .str "-", none, none⟩)]

/-- In-place update `result[d][field] = v`, as a whole-record update of the
entry with key `k`. -/
def rset (m : RMap) (k : String) (f : RawRec → RawRec) : RMap :=
  m.map (fun p => if p.1 = k then (p.1, f p.2) else p)

/-- `result[d]` lookup; total, with a default that is never used because
every lookup in the source follows a `setdefault` on the same key. -/
def rget (m : RMap) (k : String) : RawRec :=
  match m.find? (fun p => p.1 == k) with
  | some p => p.2
  | none => ⟨k, .str "-", none, none⟩

/-- Dict keys must be hashable: string keys pass, list keys raise
`TypeError` (this is where a list-valued `fmt_date` result explodes). -/
def hashKey : FmtOut → Except PyErr String
  | .fstr s => .ok s
  | .flist _ => .error .typeError

/-- The `daily_bucket` dict: date string to list of hourly temperatures,
insertion-ordered. -/
abbrev Bucket := List (String × List Int)

/-- `daily_bucket.setdefault(d, []).append(temp)`. -/
def bappend (b : Bucket) (k : String) (t : Int) : Bucket :=
  if (b.map Prod.fst).contains k then
    b.map (fun p => if p.1 = k then (p.1, p.2 ++ [t]) else p)
  else b ++ [(k, [t])]

/-- Python `min` over a list of ints; the 0 default is unreachable because
the source guards every call with a non-emptiness test. -/
def listMin : List Int → Int
  | [] => 0
  | x :: xs => xs.foldl min x

/-- Python `max` over a list of ints; default as in `listMin`. -/
def listMax : List Int → Int
  | [] => 0
  | x :: xs => xs.foldl max x

/-- Series-0 extraction (kadai.py lines 103-108): the try block assigns
`w_times` then `weathers`; a failure in the second assignment keeps the
value the first one already stored (Python try-block partial assignment). -/
def tryWeather (ts : Json) : Json × Json :=
  match pySubNat ts 0 >>= (pySubKey · "timeDefines") with
  | .error _ => (.arr [], .arr [])
  | .ok wt =>
      match pySubNat ts 0 >>= (pySubKey · "areas") >>= (pySubNat · 0) >>= (pySubKey · "weathers") with
      | .error _ => (wt, .arr [])
      | .ok ws => (wt, ws)

/-- Series-2 extraction (kadai.py lines 111-117), with the same partial
assignment semantics across the three assignments. -/
def tryDaily (ts : Json) : Json × Json × Json :=
  match pySubNat ts 2 >>= (pySubKey · "timeDefines") with
  | .error _ => (.arr [], .arr [], .arr [])
  | .ok td =>
      match pySubNat ts 2 >>= (pySubKey · "areas") >>= (pySubNat · 0) >>= (pySubKey · "tempsMin") with
      | .error _ => (td, .arr [], .arr [])
      | .ok mn =>
          match pySubNat ts 2 >>= (pySubKey · "areas") >>= (pySubNat · 0) >>= (pySubKey · "tempsMax") with
          | .error _ => (td, mn, .arr [])
          | .ok mx => (td, mn, mx)

/-- Series-1 extraction (kadai.py lines 120-125). -/
def tryHourly (ts : Json) : Json × Json :=
  match pySubNat ts 1 >>= (pySubKey · "timeDefines") with
  | .error _ => (.arr [], .arr [])
  | .ok th =>
      match pySubNat ts 1 >>= (pySubKey · "areas") >>= (pySubNat · 0) >>= (pySubKey · "temps") with
      | .error _ => (th, .arr [])
      | .ok te => (th, te)

/-- Error-propagating left fold: runs the loop body on each element,
stopping at the first uncaught exception. -/
def foldE {α β : Type} (step : β → α → Except PyErr β) : β → List α → Except PyErr β
  | b, [] => .ok b
  | b, a :: l =>
      match step b a with
      | .error e => .error e
      | .ok b1 => foldE step b1 l

/-- One iteration of the weather fill loop (kadai.py lines 130-133). -/
def weather_step (wt ws : Json) (m : RMap) (i : Nat) : Except PyErr RMap :=
  match pySubNat wt i with
  | .error e => .error e
  | .ok ti =>
  match fmt_date ti with
  | .error e => .error e
  | .ok fd =>
  match hashKey fd with
  | .error e => .error e
  | .ok k =>
  match pySubNat ws i with
  | .error e => .error e
  | .ok wi => .ok (rset (rsetdefault m k) k (fun r => { r with weather := wi }))

/-- Weather fill loop (kadai.py lines 130-133).  The `len` calls and the
subscripts sit outside any `try`, so their failures propagate. -/
def weather_fill (wt ws : Json) (m0 : RMap) : Except PyErr RMap :=
  match pyLen wt with
  | .error e => .error e
  | .ok n1 =>
  match pyLen ws with
  | .error e => .error e
  | .ok n2 => foldE (weather_step wt ws) m0 (List.range (min n1 n2))

/-- One guarded temperature update of the daily fill loop: `if i <
len(series) and series[i]: try: result[d][field] = int(series[i])` with
parse failures ignored.  `len(series)` is evaluated on every iteration,
outside any `try`, so its failure propagates. -/
def tempUpd (series : Json) (i : Nat) (m1 : RMap) (k : String)
    (setf : Int → RawRec → RawRec) : Except PyErr RMap :=
  match pyLen series with
  | .error e => .error e
  | .ok n =>
      if i < n then
        match pySubNat series i with
        | .error e => .error e
        | .ok v =>
            if pyTruthy v then
              match pyIntOf v with
              | .ok t => .ok (rset m1 k (setf t))
              | .error _ => .ok m1
            else .ok m1
      else .ok m1

/-- One iteration of the daily min/max fill loop (kadai.py lines
136-148). -/
def daily_step (td mins maxs : Json) (m : RMap) (i : Nat) : Except PyErr RMap :=
  match pySubNat td i with
  | .error e => .error e
  | .ok ti =>
  match fmt_date ti with
  | .error e => .error e
  | .ok fd =>
  match hashKey fd with
  | .error e => .error e
  | .ok k =>
  match tempUpd mins i (rsetdefault m k) k (fun t r => { r with min := some t }) with
  | .error e => .error e
  | .ok m2 => tempUpd maxs i m2 k (fun t r => { r with max := some t })

/-- Daily min/max fill loop (kadai.py lines 136-148). -/
def daily_fill (td mins maxs : Json) (m0 : RMap) : Except PyErr RMap :=
  match pyLen td with
  | .error e => .error e
  | .ok n => foldE (daily_step td mins maxs) m0 (List.range n)

/-- One iteration of the hourly bucket build loop (kadai.py lines
151-158).  The `int(...)` is inside a `try` whose failure `continue`s
before the key is used, so an unparseable temperature skips the entry even
when the key would have been unhashable. -/
def hourly_step (th temps : Json) (b : Bucket) (i : Nat) : Except PyErr Bucket :=
  match pySubNat th i with
  | .error e => .error e
  | .ok ti =>
  match fmt_date ti with
  | .error e => .error e
  | .ok fd =>
  match pySubNat temps i with
  | .error _ => .ok b
  | .ok tv =>
  match pyIntOf tv with
  | .error _ => .ok b
  | .ok t =>
  match hashKey fd with
  | .error e => .error e
  | .ok k => .ok (bappend b k t)

/-- Hourly bucket build loop (kadai.py lines 151-158). -/
def hourly_bucket (th temps : Json) : Except PyErr Bucket :=
  match pyLen th with
  | .error e => .error e
  | .ok n1 =>
  match pyLen temps with
  | .error e => .error e
  | .ok n2 => foldE (hourly_step th temps) ([] : Bucket) (List.range (min n1 n2))

/-- First half of one bucket application step: `if result[d]["min"] is None
and temps: result[d]["min"] = min(temps)` (kadai.py lines 162-163). -/
def bstep1 (m1 : RMap) (p : String × List Int) : RMap :=
  if (rget m1 p.1).min.isNone && !p.2.isEmpty then
    rset m1 p.1 (fun r => { r with min := some (listMin p.2) })
  else m1

/-- Second half of one bucket application step, for `max` (kadai.py lines
164-165). -/
def bstep2 (m2 : RMap) (p : String × List Int) : RMap :=
  if (rget m2 p.1).max.isNone && !p.2.isEmpty then
    rset m2 p.1 (fun r => { r with max := some (listMax p.2) })
  else m2

/-- One iteration of the bucket application loop (kadai.py lines
160-165). -/
def bucket_step (m : RMap) (p : String × List Int) : RMap :=
  bstep2 (bstep1 (rsetdefault m p.1) p) p

/-- Bucket application loop (kadai.py lines 160-165): fill still-absent
min/max from the date's hourly bucket. -/
def bucket_fill (b : Bucket) (m0 : RMap) : RMap :=
  b.foldl bucket_step m0

/-- Record finalization (kadai.py lines 171-178): absent min/max become the
sentinel `"-"`. -/
def finalizeRec (r : RawRec) : DailyRecord :=
  { date := r.date
    weather := r.weather
    min := match r.min with | none => .sent | some t => .val t
    max := match r.max with | none => .sent | some t => .val t }

/-- Finalization loop (kadai.py lines 168-178): iterate
`sorted(result.keys())`. -/
def finalize (m : RMap) : List DailyRecord :=
  (isortBy strLe (rkeys m)).map (fun k => finalizeRec (rget m k))

/-- `root.get("timeSeries", [])` (kadai.py line 100).  Not inside any
`try`: a non-dict first element raises `AttributeError` out of the
normalizer. -/
def tsOf (root : Json) : Except PyErr Json :=
  match root with
  | .obj kvs => .ok ((lookupKey kvs "timeSeries").getD (.arr []))
  | _ => .error .attributeError

/-- Normalizer pipeline on an extracted `timeSeries` value: the four loop
phases and the finalization. -/
def pick_series (ts : Json) : Except PyErr (List DailyRecord) :=
  match weather_fill (tryWeather ts).1 (tryWeather ts).2 [] with
  | .error e => .error e
  | .ok m1 =>
  match daily_fill (tryDaily ts).1 (tryDaily ts).2.1 (tryDaily ts).2.2 m1 with
  | .error e => .error e
  | .ok m2 =>
  match hourly_bucket (tryHourly ts).1 (tryHourly ts).2 with
  | .error e => .error e
  | .ok b => .ok ((finalize (bucket_fill b m2)).take 6)

/-- `pick_daily_weather_and_temp` (kadai.py lines 89-180). -/
def pick_daily_weather_and_temp (raw : Json) : Except PyErr (List DailyRecord) :=
  match raw with
  | .arr [] => .ok []
  | .arr (root :: _) =>
      match tsOf root with
      | .error e => .error e
      | .ok ts => pick_series ts
  | _ => .ok []

/-- Decimal digits of a natural number (fuel-indexed structural recursion
so that concrete evaluation reduces in the kernel). -/
def natChars : Nat → Nat → List Char
  | 0, _ => []
  | fuel + 1, n => if n < 10 then [dChar n] else natChars fuel (n / 10) ++ [dChar (n % 10)]

/-- Decimal text of an integer, as SQLite renders an INTEGER stored under
TEXT affinity. -/
def intText (n : Int) : String :=
  if n < 0 then String.mk ('-' :: natChars (n.natAbs + 1) n.natAbs)
  else String.mk (natChars (n.natAbs + 1) n.natAbs)

/-- A row of the `forecasts` table (kadai.py lines 38-49); the AUTOINCREMENT
id is elided as nothing reads it.  `weather` is nullable TEXT, `temp_min`
and `temp_max` nullable INTEGER. -/
structure Row where
  office_code : String
  forecast_date : String
  report_datetime : String
  weather : Option String
  temp_min : Option Int
  temp_max : Option Int
deriving DecidableEq

/-- SQLite binding plus TEXT affinity for the nullable `weather` column:
`None` stores NULL, strings store verbatim, Python ints (and bools, which
bind as 0/1) convert to their decimal text, and unsupported types (lists,
dicts) raise `sqlite3.InterfaceError`. -/
def bindDbText : Json → Except PyErr (Option String)
  | .null => .ok none
  | .bool b => .ok (some (if b then "1" else "0"))
  | .num n => .ok (some (intText n))
  | .str s => .ok (some s)
  | _ => .error .interfaceError

/-- Binding for the NOT NULL `report_datetime` column: as `bindDbText`, but
NULL violates the constraint (`IntegrityError`). -/
def bindRdtText : Json → Except PyErr String
  | .null => .error .integrityError
  | .bool b => .ok (if b then "1" else "0")
  | .num n => .ok (intText n)
  | .str s => .ok s
  | _ => .error .interfaceError

/-- `None if d["min"] == "-" else int(d["min"])` (kadai.py lines 206-207). -/
def tval : TempVal → Option Int
  | .sent => none
  | .val t => some t

/-- Does a row with this `(office_code, forecast_date, report_datetime)`
triple exist — the UNIQUE constraint's key. -/
def hasTriple (rows : List Row) (c d r : String) : Bool :=
  rows.any (fun q => q.office_code == c && q.forecast_date == d && q.report_datetime == r)

/-- `INSERT OR IGNORE` under `UNIQUE(office_code, forecast_date,
report_datetime)`: skip silently when the triple exists, never update. -/
def insertIgnore (rows : List Row) (r : Row) : List Row :=
  if hasTriple rows r.office_code r.forecast_date r.report_datetime then rows else rows ++ [r]

/-- `save_forecasts` (kadai.py lines 202-215).  The `with get_conn()`
context commits on success and rolls back on an exception, so a failed
binding leaves the caller's table untouched: the function returns either
the fully updated row list or the error. -/
def save_forecasts (rows : List Row) (code : String) (rdt : Json) :
    List DailyRecord → Except PyErr (List Row)
  | [] => .ok rows
  | d :: ds =>
      match bindDbText d.weather with
      | .error e => .error e
      | .ok w =>
      match bindRdtText rdt with
      | .error e => .error e
      | .ok rdtS =>
          save_forecasts (insertIgnore rows ⟨code, d.date, rdtS, w, tval d.min, tval d.max⟩)
            code rdt ds

/-- Row comparison used by `ORDER BY forecast_date ASC`. -/
def leDate (a b : Row) : Bool := strLe a.forecast_date b.forecast_date

/-- `load_forecasts` (kadai.py lines 233-256): select the snapshot's rows,
date-ascending, capped at `limit_days`; NULL or empty weather renders as
`"-"` (Python `row["weather"] or "-"`), NULL temps as the sentinel. -/
def load_forecasts (rows : List Row) (code : String) (report_dt : String) (limit_days : Nat) :
    List DailyRecord :=
  ((isortBy leDate (rows.filter (fun r =>
      r.office_code == code && r.report_datetime == report_dt))).take limit_days).map (fun r =>
    { date := r.forecast_date
      weather := .str (match r.weather with
        | none => "-"
        | some s => if s = "" then "-" else s)
      min := match r.temp_min with | none => .sent | some t => .val t
      max := match r.temp_max with | none => .sent | some t => .val t })

/-- `get_report_history` (kadai.py lines 218-230): distinct
`report_datetime`s of the office, descending, capped at `limit`. -/
def get_report_history (rows : List Row) (code : String) (limit : Nat) : List String :=
  (isortBy (fun a b => strLe b a)
    ((rows.filter (fun r => r.office_code == code)).map (·.report_datetime)).dedup).take limit

/-- SQL `MAX` over TEXT values (lexicographic by BINARY collation). -/
def smax? : List String → Option String
  | [] => none
  | x :: xs =>
      match smax? xs with
      | none => some x
      | some m => some (if strLe x m then m else x)

/-- `latest_report_dt` (kadai.py lines 259-265): `MAX(report_datetime)` for
the office; the Python truthiness test maps an empty-string maximum (like
NULL) to `None`. -/
def latest_report_dt (rows : List Row) (code : String) : Option String :=
  match smax? ((rows.filter (fun r => r.office_code == code)).map (·.report_datetime)) with
  | some m => if m = "" then none else some m
  | none => none

/-- A row of the `areas` table (kadai.py lines 30-36). -/
structure AreaRow where
  office_code : String
  office_name : String
  center_code : Option String
  center_name : Option String
  updated_at : String
deriving DecidableEq

/-- `upsert_area` (kadai.py lines 186-199): insert, or overwrite every
non-key column on conflict. -/
def upsert_area (areas : List AreaRow) (a : AreaRow) : List AreaRow :=
  if areas.any (fun q => q.office_code == a.office_code) then
    areas.map (fun q => if q.office_code = a.office_code then a else q)
  else areas ++ [a]

/-- The persistent database state: both tables. -/
structure Store where
  areas : List AreaRow
  forecasts : List Row
deriving DecidableEq

/-- The wall-clock "now" of a run.  `utcSec` is the physical instant in
seconds; `localOffMin` is the system's local-time offset, used when the
stored timestamp is naive (`datetime.now()` with no argument). -/
structure Clock where
  utcSec : Int
  localOffMin : Int
deriving DecidableEq

/-- Days from 1970-01-01 of a proleptic Gregorian date (civil-days
algorithm); all intermediate quantities are non-negative for the year
range `fromisoformat` admits. -/
def daysFromCivil (y mo dy : Nat) : Int :=
  let yy : Nat := if mo ≤ 2 then y - 1 else y
  let era : Nat := yy / 400
  let yoe : Nat := yy - era * 400
  let mp : Nat := if 2 < mo then mo - 3 else mo + 9
  let doy : Nat := (153 * mp + 2) / 5 + dy - 1
  let doe : Nat := yoe * 365 + yoe / 4 - yoe / 100 + doy
  ((era * 146097 + doe : Nat) : Int) - 719468

/-- Seconds encoded by the wall-clock fields of a parsed timestamp,
ignoring its offset. -/
def wallSec (dt : PyDateTime) : Int :=
  daysFromCivil dt.year dt.month dt.day * 86400 +
    ((dt.hour * 3600 + dt.minute * 60 + dt.second : Nat) : Int)

/-- `now - dt` in seconds as `is_fresh` computes it: for an aware
timestamp, `datetime.now(dt.tzinfo) - dt` compares physical instants; for
a naive one, `datetime.now() - dt` compares local wall-clock values. -/
def freshDiffSec (clk : Clock) (dt : PyDateTime) : Int :=
  match dt.tzOffMin with
  | some off => clk.utcSec - (wallSec dt - off * 60)
  | none => (clk.utcSec + clk.localOffMin * 60) - wallSec dt

/-- `is_fresh` (kadai.py lines 268-273): unparseable timestamps are never
fresh; otherwise fresh iff `now - dt <= timedelta(minutes=minutes)`
(boundary inclusive; a negative difference also counts). -/
def is_fresh (clk : Clock) (report_dt : String) (minutes : Int) : Bool :=
  match parse_iso_dt report_dt with
  | none => false
  | some dt => freshDiffSec clk dt ≤ minutes * 60

/-- `extract_report_datetime` (kadai.py lines 78-83): `reportDatetime` of
the first element, or the current UTC time when the payload yields no
truthy value or any lookup raises. -/
def extract_report_datetime (fj : Json) (nowUtcIso : String) : Json :=
  match pySubNat fj 0 with
  | .error _ => .str nowUtcIso
  | .ok root =>
      match root with
      | .obj kvs =>
          match lookupKey kvs "reportDatetime" with
          | some v => if pyTruthy v then v else .str nowUtcIso
          | none => .str nowUtcIso
      | _ => .str nowUtcIso

/-- `rebuild_history_dropdown` (kadai.py lines 392-400): select the
requested report timestamp when it is truthy and present in the history,
else the most recent entry, else nothing.  A non-string selection never
equals a stored TEXT value. -/
def rebuild_dd (hist : List String) (sel : Option Json) : Option String :=
  match sel with
  | some (.str s) => if s ≠ "" ∧ s ∈ hist then some s else hist.head?
  | some _ => hist.head?
  | none => hist.head?

/-- Storage call sites of `fetch_save_and_show`, for fault injection: a
site whose fault flag is set raises `storageError` at that call. -/
inductive Site where
  | latestPre
  | histCache
  | loadCache
  | upsertA
  | saveF
  | histFetch
  | loadFetch
  | latestExc
  | histExc
  | loadExc
deriving DecidableEq

/-- The no-fault storage layer. -/
def noFaults : Site → Bool := fun _ => false

/-- Which status class a finished run displayed (the three user-visible
outcomes of `fetch_save_and_show`). -/
inductive Source where
  | cache
  | fetched
  | staleFallback
deriving DecidableEq

/-- Observable UI outcome of a run: the status class, the selected history
entry, and the records rendered from the DB (`none` when nothing was
rendered). -/
structure UiState where
  source : Source
  dd : Option String
  rendered : Option (List DailyRecord)

/-- Call context of `fetch_save_and_show`: the selected office, the clock,
and the two `now().isoformat()` strings the source materialises. -/
structure Env where
  code : String
  name : String
  center_code : Option String
  center_name : Option String
  clk : Clock
  nowUtcIso : String
  nowLocalIso : String

/-- Tail of the fetch branch after a (possible) save (kadai.py lines
443-445): rebuild the history dropdown selecting the fetched
`report_datetime` and render the selected snapshot. -/
def fetch_render (env : Env) (rdt : Json) (f : Site → Bool) (st1 : Store) :
    Store × Except PyErr UiState :=
  if f .histFetch then (st1, .error .storageError)
  else
    match rebuild_dd (get_report_history st1.forecasts env.code 30) (some rdt) with
    | some v =>
        if f .loadFetch then (st1, .error .storageError)
        else (st1, .ok ⟨.fetched, some v, some (load_forecasts st1.forecasts env.code v 6)⟩)
    | none => (st1, .ok ⟨.fetched, none, none⟩)

/-- The `try` block of the fetch branch (kadai.py lines 427-446).  The
store is threaded out even on error because `upsert_area` commits its own
transaction before `save_forecasts` runs. -/
def fetch_try (env : Env) (st : Store) (fetch : Except PyErr Json) (f : Site → Bool) :
    Store × Except PyErr UiState :=
  match fetch with
  | .error e => (st, .error e)
  | .ok data =>
      let rdt := extract_report_datetime data env.nowUtcIso
      match pick_daily_weather_and_temp data with
      | .error e => (st, .error e)
      | .ok daily =>
          if daily.isEmpty then fetch_render env rdt f st
          else if f .upsertA then (st, .error .storageError)
          else
            let st1 := { st with
              areas := upsert_area st.areas
                ⟨env.code, env.name, env.center_code, env.center_name, env.nowLocalIso⟩ }
            if f .saveF then (st1, .error .storageError)
            else
              match save_forecasts st1.forecasts env.code rdt daily with
              | .error e => (st1, .error e)
              | .ok rows => fetch_render env rdt f { st1 with forecasts := rows }

/-- Rendering step of the fallback handler: `if history_dd.value:
render_from_db(...)` (kadai.py lines 453-454), on the selected history
entry. -/
def fallback_render (env : Env) (st : Store) (f : Site → Bool) :
    Option String → Except PyErr (Store × UiState)
  | some v =>
      if f .loadExc then .error .storageError
      else .ok (st, ⟨.staleFallback, some v, some (load_forecasts st.forecasts env.code v 6)⟩)
  | none => .ok (st, ⟨.staleFallback, none, none⟩)

/-- The `except Exception` handler (kadai.py lines 448-454): fall back to
the latest stored snapshot.  Storage faults raised here are no longer
inside any handler and propagate. -/
def except_fallback (env : Env) (st : Store) (f : Site → Bool) :
    Except PyErr (Store × UiState) :=
  if f .latestExc then .error .storageError
  else if f .histExc then .error .storageError
  else
    fallback_render env st f
      (rebuild_dd (get_report_history st.forecasts env.code 30)
        ((latest_report_dt st.forecasts env.code).map Json.str))

/-- Fetch path: the `try` block, with any exception (fetch failure,
normalizer raise, or storage fault inside the block) routed to the
fallback handler. -/
def fetch_branch (env : Env) (st : Store) (fetch : Except PyErr Json) (f : Site → Bool) :
    Except PyErr (Store × UiState) :=
  match fetch_try env st fetch f with
  | (st1, .ok ui) => .ok (st1, ui)
  | (st1, .error _) => except_fallback env st1 f

/-- Rendering step of the cache branch: `render_from_db(code,
history_dd.value)` (kadai.py line 422), called unconditionally on the
selected entry (a `None` selection queries `report_datetime = NULL` and
renders nothing). -/
def cache_render (env : Env) (st : Store) (f : Site → Bool) :
    Option String → Except PyErr (Store × Option UiState)
  | some v =>
      if f .loadCache then .error .storageError
      else .ok (st, some ⟨.cache, some v, some (load_forecasts st.forecasts env.code v 6)⟩)
  | none =>
      if f .loadCache then .error .storageError
      else .ok (st, some ⟨.cache, none, some []⟩)

/-- Cache branch body (kadai.py lines 420-423): rebuild the history
dropdown selecting the latest snapshot and render it from the DB, with no
network access. -/
def cache_view (env : Env) (st : Store) (f : Site → Bool) (l : String) :
    Except PyErr (Store × Option UiState) :=
  if f .histCache then .error .storageError
  else
    cache_render env st f
      (rebuild_dd (get_report_history st.forecasts env.code 30) (some (.str l)))

/-- Branch on the stored latest report (kadai.py line 419): serve the
cache when a latest snapshot exists, is fresh, and no force-refresh was
requested; otherwise run the fetch branch. -/
def after_latest (env : Env) (st : Store) (force : Bool) (fetch : Except PyErr Json)
    (f : Site → Bool) : Option String → Except PyErr (Store × Option UiState)
  | some l =>
      if ¬force ∧ is_fresh env.clk l 10 then cache_view env st f l
      else (fetch_branch env st fetch f).map (fun p => (p.1, some p.2))
  | none => (fetch_branch env st fetch f).map (fun p => (p.1, some p.2))

/-- `fetch_save_and_show` (kadai.py lines 411-456).  The network fetch is
passed in as its result (`fetch`); the cache branch never consults it.
Result: the updated store and the UI outcome (`none` when no office is
selected and the function returns immediately). -/
def fetch_save_and_show (env : Env) (st : Store) (force : Bool) (fetch : Except PyErr Json)
    (f : Site → Bool) : Except PyErr (Store × Option UiState) :=
  if env.code = "" ∨ env.name = "" then .ok (st, none)
  else if f .latestPre then .error .storageError
  else after_latest env st force fetch f (latest_report_dt st.forecasts env.code)

/-- Decidable safe-shape predicate for the normalizer: `true` when every
value the loops subscript is a list and every time entry is a string, the
shapes on which no uncaught exception is reachable (absent keys and absent
series included, since the extraction defaults are empty lists). -/
def strArrB : Json → Bool
  | .arr xs => xs.all (fun x => match x with | .str _ => true | _ => false)
  | _ => false

/-- Is the value a list (of anything)? -/
def anyArrB : Json → Bool
  | .arr _ => true
  | _ => false

/-- Safe shapes for the three extracted series. -/
def safeSeriesB (ts : Json) : Bool :=
  let (wt, ws) := tryWeather ts
  let (td, mins, maxs) := tryDaily ts
  let (th, temps) := tryHourly ts
  strArrB wt && anyArrB ws && strArrB td && anyArrB mins && anyArrB maxs &&
    strArrB th && anyArrB temps

/-- Safe shapes for a whole payload: anything that is not a non-empty
array returns `[]` immediately; a non-empty array must start with an
object whose extracted series are safely shaped. -/
def safeRawB : Json → Bool
  | .arr (root :: _) =>
      (match root with | .obj _ => true | _ => false) &&
        (match tsOf root with | .ok ts => safeSeriesB ts | .error _ => false)
  | _ => true

/-- Observation used to compare record lists without decidable equality on
`Json`: the weather field's string content. -/
def weatherObs : Json → String
  | .str s => s
  | _ => ""

/-- Well-formedness of the normalizer's `result` dict: keys are distinct
and each entry's `date` field equals its key (both hold by construction:
`setdefault` inserts `{"date": d, ...}` under key `d` and no update
touches the date). -/
def KOk (m : RMap) : Prop :=
  (rkeys m).Nodup ∧ ∀ p ∈ m, p.2.date = p.1

/-- Well-formedness of `daily_bucket`: distinct keys, and every bucket is
non-empty (an entry is only ever created with one element). -/
def BOk (b : Bucket) : Prop :=
  (b.map Prod.fst).Nodup ∧ ∀ p ∈ b, p.2 ≠ []

/-! Generic lemmas: error-propagating folds, self-maps, the string order,
and insertion sort. -/

theorem foldE_inv {α β : Type} (P : β → Prop) (step : β → α → Except PyErr β) :
    ∀ (l : List α) (b b' : β),
      (∀ c a c', a ∈ l → P c → step c a = .ok c' → P c') →
      P b → foldE step b l = .ok b' → P b'
  | [], b, b', _, hb, h => by
      simp only [foldE, Except.ok.injEq] at h
      exact h ▸ hb
  | a :: l, b, b', hstep, hb, h => by
      unfold foldE at h
      cases hsa : step b a with
      | error e => rw [hsa] at h; cases h
      | ok b1 =>
          rw [hsa] at h
          exact foldE_inv P step l b1 b'
            (fun c a' c' ha' => hstep c a' c' (List.mem_cons_of_mem _ ha'))
            (hstep b a b1 (List.mem_cons_self a l) hb hsa) h

theorem foldE_ok {α β : Type} (step : β → α → Except PyErr β) :
    ∀ (l : List α) (b : β),
      (∀ c a, a ∈ l → ∃ c', step c a = .ok c') →
      ∃ b', foldE step b l = .ok b'
  | [], b, _ => ⟨b, rfl⟩
  | a :: l, b, hstep => by
      rcases hstep b a (List.mem_cons_self a l) with ⟨b1, hb1⟩
      rcases foldE_ok step l b1 (fun c a' ha' => hstep c a' (List.mem_cons_of_mem _ ha')) with
        ⟨b', hb'⟩
      exact ⟨b', by simp only [foldE, hb1]; exact hb'⟩

theorem map_eq_self {α : Type} (f : α → α) :
    ∀ l : List α, (∀ x ∈ l, f x = x) → l.map f = l
  | [], _ => rfl
  | x :: l, h => by
      simp only [List.map_cons, h x (List.mem_cons_self x l),
        map_eq_self f l (fun y hy => h y (List.mem_cons_of_mem _ hy))]

theorem charListLe_cons (a b : Char) (as bs : List Char) :
    charListLe (a :: as) (b :: bs) = true ↔ (a < b ∨ (a = b ∧ charListLe as bs = true)) := by
  rcases lt_trichotomy a b with h | h | h
  · simp [charListLe, h]
  · subst h
    simp [charListLe, lt_irrefl]
  · simp [charListLe, h, asymm h, h.ne']

theorem charListLe_refl : ∀ cs : List Char, charListLe cs cs = true
  | [] => rfl
  | c :: cs => (charListLe_cons c c cs cs).mpr (Or.inr ⟨rfl, charListLe_refl cs⟩)

theorem charListLe_total : ∀ as bs : List Char, charListLe as bs = true ∨ charListLe bs as = true
  | [], _ => Or.inl rfl
  | _ :: _, [] => Or.inr rfl
  | a :: as, b :: bs => by
      rcases lt_trichotomy a b with h | h | h
      · exact Or.inl ((charListLe_cons _ _ _ _).mpr (Or.inl h))
      · subst h
        rcases charListLe_total as bs with ih | ih
        · exact Or.inl ((charListLe_cons _ _ _ _).mpr (Or.inr ⟨rfl, ih⟩))
        · exact Or.inr ((charListLe_cons _ _ _ _).mpr (Or.inr ⟨rfl, ih⟩))
      · exact Or.inr ((charListLe_cons _ _ _ _).mpr (Or.inl h))

theorem charListLe_trans : ∀ as bs cs : List Char,
    charListLe as bs = true → charListLe bs cs = true → charListLe as cs = true
  | [], _, _, _, _ => rfl
  | _ :: _, [], _, h1, _ => by simp [charListLe] at h1
  | _ :: _, _ :: _, [], _, h2 => by simp [charListLe] at h2
  | a :: as, b :: bs, c :: cs, h1, h2 => by
      rcases (charListLe_cons _ _ _ _).mp h1 with hab | ⟨rfl, h1'⟩
      · rcases (charListLe_cons _ _ _ _).mp h2 with hbc | ⟨rfl, h2'⟩
        · exact (charListLe_cons _ _ _ _).mpr (Or.inl (lt_trans hab hbc))
        · exact (charListLe_cons _ _ _ _).mpr (Or.inl hab)
      · rcases (charListLe_cons _ _ _ _).mp h2 with hbc | ⟨rfl, h2'⟩
        · exact (charListLe_cons _ _ _ _).mpr (Or.inl hbc)
        · exact (charListLe_cons _ _ _ _).mpr
            (Or.inr ⟨rfl, charListLe_trans as bs cs h1' h2'⟩)

theorem charListLe_antisymm : ∀ as bs : List Char,
    charListLe as bs = true → charListLe bs as = true → as = bs
  | [], [], _, _ => rfl
  | [], _ :: _, _, h2 => by simp [charListLe] at h2
  | _ :: _, [], h1, _ => by simp [charListLe] at h1
  | a :: as, b :: bs, h1, h2 => by
      rcases (charListLe_cons _ _ _ _).mp h1 with hab | ⟨rfl, h1'⟩
      · rcases (charListLe_cons _ _ _ _).mp h2 with hba | ⟨he, _⟩
        · exact absurd hba (asymm hab)
        · exact absurd he.symm (ne_of_lt hab)
      · rcases (charListLe_cons _ _ _ _).mp h2 with hba | ⟨_, h2'⟩
        · exact absurd hba (lt_irrefl a)
        · rw [charListLe_antisymm as bs h1' h2']

theorem strLe_refl (a : String) : strLe a a = true := charListLe_refl a.data

theorem strLe_total (a b : String) : strLe a b = true ∨ strLe b a = true :=
  charListLe_total a.data b.data

theorem strLe_trans (a b c : String) :
    strLe a b = true → strLe b c = true → strLe a c = true :=
  charListLe_trans a.data b.data c.data

theorem strLe_antisymm (a b : String) (h1 : strLe a b = true) (h2 : strLe b a = true) :
    a = b := by
  cases a with
  | mk da => cases b with
    | mk db => exact congrArg String.mk (charListLe_antisymm da db h1 h2)

theorem strLt_of_le_of_ne {a b : String} (h1 : strLe a b = true) (h2 : a ≠ b) :
    strLt a b = true := by
  have : strLe b a = false := by
    cases hba : strLe b a with
    | false => rfl
    | true => exact absurd (strLe_antisymm a b h1 hba) h2
  simp [strLt, h1, this]

theorem ne_of_strLt {a b : String} (h : strLt a b = true) : a ≠ b := by
  intro he
  subst he
  simp [strLt, strLe_refl] at h

theorem strLe_of_strLt {a b : String} (h : strLt a b = true) : strLe a b = true := by
  simp only [strLt, Bool.and_eq_true] at h
  exact h.1

theorem insertLe_perm {α : Type} (le : α → α → Bool) (x : α) :
    ∀ l : List α, (insertLe le x l).Perm (x :: l)
  | [] => List.Perm.refl _
  | y :: ys => by
      by_cases h : le x y = true
      · simp [insertLe, h]
      · simp only [insertLe, h, if_false]
        exact ((insertLe_perm le x ys).cons y).trans (List.Perm.swap x y ys)

theorem isortBy_perm {α : Type} (le : α → α → Bool) :
    ∀ l : List α, (isortBy le l).Perm l
  | [] => List.Perm.refl _
  | x :: xs => (insertLe_perm le x (isortBy le xs)).trans ((isortBy_perm le xs).cons x)

theorem insertLe_pairwise {α : Type} (le : α → α → Bool)
    (htot : ∀ a b, le a b = true ∨ le b a = true)
    (htrans : ∀ a b c, le a b = true → le b c = true → le a c = true) (x : α) :
    ∀ l : List α, l.Pairwise (fun a b => le a b = true) →
      (insertLe le x l).Pairwise (fun a b => le a b = true)
  | [], _ => by simp [insertLe]
  | y :: ys, h => by
      rcases List.pairwise_cons.mp h with ⟨hy, hys⟩
      by_cases hxy : le x y = true
      · simp only [insertLe, hxy, if_true]
        refine List.pairwise_cons.mpr ⟨?_, h⟩
        intro z hz
        rcases List.mem_cons.mp hz with rfl | hz'
        · exact hxy
        · exact htrans x y z hxy (hy z hz')
      · have hyx : le y x = true := (htot x y).resolve_left hxy
        simp only [insertLe, hxy, if_false]
        refine List.pairwise_cons.mpr
          ⟨?_, insertLe_pairwise le htot htrans x ys hys⟩
        intro z hz
        have hz2 : z = x ∨ z ∈ ys := by
          have := (insertLe_perm le x ys).mem_iff.mp hz
          simpa using this
        rcases hz2 with rfl | hz'
        · exact hyx
        · exact hy z hz'

theorem isortBy_pairwise {α : Type} (le : α → α → Bool)
    (htot : ∀ a b, le a b = true ∨ le b a = true)
    (htrans : ∀ a b c, le a b = true → le b c = true → le a c = true) :
    ∀ l : List α, (isortBy le l).Pairwise (fun a b => le a b = true)
  | [] => List.Pairwise.nil
  | x :: xs =>
      insertLe_pairwise le htot htrans x (isortBy le xs)
        (isortBy_pairwise le htot htrans xs)

theorem insertLe_eq_cons {α : Type} (le : α → α → Bool) (x : α) :
    ∀ l : List α, (∀ z ∈ l, le x z = true) → insertLe le x l = x :: l
  | [], _ => rfl
  | y :: ys, h => by simp [insertLe, h y (List.mem_cons_self y ys)]

theorem isortBy_eq_of_pairwise {α : Type} (le : α → α → Bool) :
    ∀ l : List α, l.Pairwise (fun a b => le a b = true) → isortBy le l = l
  | [], _ => rfl
  | x :: xs, h => by
      rcases List.pairwise_cons.mp h with ⟨hx, hxs⟩
      rw [isortBy, isortBy_eq_of_pairwise le xs hxs]
      exact insertLe_eq_cons le x xs hx

/-! Lemmas about the `result` dict operations and the normalizer's
invariants. -/

theorem rkeys_rset (m : RMap) (k : String) (f : RawRec → RawRec) :
    rkeys (rset m k f) = rkeys m := by
  unfold rkeys rset
  rw [List.map_map]
  apply List.map_congr_left
  intro p _
  by_cases h : p.1 = k <;> simp [h]

theorem mem_rkeys_rsetdefault (m : RMap) (k k' : String) :
    k' ∈ rkeys (rsetdefault m k) ↔ k' ∈ rkeys m ∨ k' = k := by
  unfold rsetdefault
  by_cases h : (rkeys m).contains k = true
  · rw [if_pos h]
    have hk : k ∈ rkeys m := List.elem_iff.mp h
    constructor
    · exact Or.inl
    · rintro (h' | rfl)
      · exact h'
      · exact hk
  · rw [if_neg h]
    unfold rkeys
    rw [List.map_append]
    simp

theorem KOk_rsetdefault {m : RMap} (k : String) (hm : KOk m) : KOk (rsetdefault m k) := by
  rcases hm with ⟨hn, hd⟩
  unfold rsetdefault
  by_cases h : (rkeys m).contains k = true
  · rw [if_pos h]
    exact ⟨hn, hd⟩
  · rw [if_neg h]
    constructor
    · unfold rkeys
      rw [List.map_append]
      simp only [List.map_cons, List.map_nil]
      rw [List.nodup_append]
      refine ⟨hn, List.nodup_singleton k, ?_⟩
      intro a ha hb
      rcases List.mem_singleton.mp hb with rfl
      exact h (List.elem_iff.mpr ha)
    · intro p hp
      rcases List.mem_append.mp hp with h' | h'
      · exact hd p h'
      · rcases List.mem_singleton.mp h' with rfl
        rfl

theorem KOk_rset {m : RMap} (k : String) (f : RawRec → RawRec)
    (hf : ∀ r, (f r).date = r.date) (hm : KOk m) : KOk (rset m k f) := by
  rcases hm with ⟨hn, hd⟩
  constructor
  · rw [rkeys_rset]; exact hn
  · intro p hp
    rcases List.mem_map.mp hp with ⟨q, hq, he⟩
    by_cases h : q.1 = k
    · simp only [h, if_true] at he
      rw [← he]
      simpa [hf, h] using hd q hq
    · simp only [h, if_false] at he
      rw [← he]
      exact hd q hq

theorem rget_date {m : RMap} (hd : ∀ p ∈ m, p.2.date = p.1) (k : String) :
    (rget m k).date = k := by
  unfold rget
  cases hf : m.find? (fun p => p.1 == k) with
  | none => rfl
  | some p =>
      have h1 := List.find?_some hf
      have h2 := List.mem_of_find?_eq_some hf
      simp only at h1
      rw [hd p h2]
      exact eq_of_beq h1

theorem KOk_tempUpd {series : Json} {i : Nat} {m1 m2 : RMap} {k : String}
    {setf : Int → RawRec → RawRec} (hf : ∀ t r, (setf t r).date = r.date)
    (h : tempUpd series i m1 k setf = .ok m2) (hm : KOk m1) : KOk m2 := by
  unfold tempUpd at h
  repeat' split at h
  all_goals cases h
  all_goals first
    | exact hm
    | exact KOk_rset k _ (fun r => hf _ r) hm

theorem KOk_weather_step {wt ws : Json} {m m' : RMap} {i : Nat}
    (h : weather_step wt ws m i = .ok m') (hm : KOk m) : KOk m' := by
  unfold weather_step at h
  repeat' split at h
  all_goals cases h
  exact KOk_rset _ _ (fun r => rfl) (KOk_rsetdefault _ hm)

theorem KOk_daily_step {td mins maxs : Json} {m m' : RMap} {i : Nat}
    (h : daily_step td mins maxs m i = .ok m') (hm : KOk m) : KOk m' := by
  unfold daily_step at h
  repeat' split at h
  all_goals try (cases h; done)
  rename_i m2 heqmid
  have hmid : KOk m2 := KOk_tempUpd (by intro t r; rfl) heqmid (KOk_rsetdefault _ hm)
  exact KOk_tempUpd (by intro t r; rfl) h hmid

theorem KOk_weather_fill {wt ws : Json} {m0 m' : RMap}
    (h : weather_fill wt ws m0 = .ok m') (hm : KOk m0) : KOk m' := by
  unfold weather_fill at h
  repeat' split at h
  all_goals try (cases h; done)
  exact foldE_inv KOk _ _ _ _ (fun c a c' _ hc hs => KOk_weather_step hs hc) hm h

theorem KOk_daily_fill {td mins maxs : Json} {m0 m' : RMap}
    (h : daily_fill td mins maxs m0 = .ok m') (hm : KOk m0) : KOk m' := by
  unfold daily_fill at h
  repeat' split at h
  all_goals try (cases h; done)
  exact foldE_inv KOk _ _ _ _ (fun c a c' _ hc hs => KOk_daily_step hs hc) hm h

theorem KOk_bstep1 {m1 : RMap} (p : String × List Int) (hm : KOk m1) : KOk (bstep1 m1 p) := by
  unfold bstep1
  split
  · exact KOk_rset _ _ (fun r => rfl) hm
  · exact hm

theorem KOk_bstep2 {m2 : RMap} (p : String × List Int) (hm : KOk m2) : KOk (bstep2 m2 p) := by
  unfold bstep2
  split
  · exact KOk_rset _ _ (fun r => rfl) hm
  · exact hm

theorem KOk_bucket_step {m : RMap} (p : String × List Int) (hm : KOk m) :
    KOk (bucket_step m p) :=
  KOk_bstep2 p (KOk_bstep1 p (KOk_rsetdefault _ hm))

theorem KOk_bucket_fill : ∀ (b : Bucket) (m : RMap), KOk m → KOk (bucket_fill b m)
  | [], _, hm => hm
  | p :: bt, m, hm => KOk_bucket_fill bt (bucket_step m p) (KOk_bucket_step p hm)

theorem KOk_empty : KOk [] :=
  ⟨List.nodup_nil, fun p hp => absurd hp (List.not_mem_nil p)⟩

theorem finalize_dates {m : RMap} (hd : ∀ p ∈ m, p.2.date = p.1) :
    (finalize m).map (fun d => d.date) = isortBy strLe (rkeys m) := by
  unfold finalize
  rw [List.map_map]
  exact map_eq_self _ _ (fun k _ => rget_date hd k)

theorem pick_series_shape {ts : Json} {out : List DailyRecord}
    (h : pick_series ts = .ok out) :
    ∃ m, KOk m ∧ out = (finalize m).take 6 := by
  unfold pick_series at h
  repeat' split at h
  all_goals try (cases h; done)
  rename_i x1 m1 heqw x2 m2 heqd x3 b heqb
  cases h
  exact ⟨bucket_fill b m2,
    KOk_bucket_fill b m2 (KOk_daily_fill heqd (KOk_weather_fill heqw KOk_empty)), rfl⟩

theorem pick_shape {raw : Json} {out : List DailyRecord}
    (h : pick_daily_weather_and_temp raw = .ok out) :
    ∃ m, KOk m ∧ out = (finalize m).take 6 := by
  unfold pick_daily_weather_and_temp at h
  repeat' split at h
  all_goals try (cases h; done)
  · exact ⟨[], KOk_empty, by cases h; rfl⟩
  · exact pick_series_shape h
  · exact ⟨[], KOk_empty, by cases h; rfl⟩

theorem sorted_keys {m : RMap} (hm : KOk m) :
    (isortBy strLe (rkeys m)).Pairwise (fun a b => strLt a b = true) := by
  have hp : (isortBy strLe (rkeys m)).Pairwise (fun a b => strLe a b = true) :=
    isortBy_pairwise strLe strLe_total strLe_trans (rkeys m)
  have hn : (isortBy strLe (rkeys m)).Nodup :=
    (isortBy_perm strLe (rkeys m)).nodup_iff.mpr hm.1
  exact (hp.and hn).imp (fun h => strLt_of_le_of_ne h.1 h.2)

theorem pick_sorted {raw : Json} {out : List DailyRecord}
    (h : pick_daily_weather_and_temp raw = .ok out) :
    out.length ≤ 6 ∧ (out.map (fun d => d.date)).Pairwise (fun a b => strLt a b = true) := by
  rcases pick_shape h with ⟨m, hm, rfl⟩
  constructor
  · exact List.length_take_le 6 _
  · rw [List.map_take, finalize_dates hm.2]
    exact (sorted_keys hm).sublist (List.take_sublist 6 _)

/-! Lemmas for the safe-shape region of the normalizer. -/

theorem pySubNat_arr {xs : List Json} {i : Nat} (h : i < xs.length) :
    pySubNat (.arr xs) i = .ok xs[i] := by
  have he : pySubNat (.arr xs) i =
      (match xs[i]? with
        | some x => Except.ok x
        | none => Except.error PyErr.indexError) := rfl
  rw [he, List.getElem?_eq_getElem h]

theorem strArrB_elim : ∀ {j : Json}, strArrB j = true →
    ∃ xs, j = .arr xs ∧ ∀ x ∈ xs, ∃ s, x = .str s
  | .arr xs, h => by
      refine ⟨xs, rfl, ?_⟩
      intro x hx
      have hx2 := List.all_eq_true.mp h x hx
      cases x with
      | str s => exact ⟨s, rfl⟩
      | null => exact Bool.noConfusion hx2
      | bool b => exact Bool.noConfusion hx2
      | num n => exact Bool.noConfusion hx2
      | arr a => exact Bool.noConfusion hx2
      | obj o => exact Bool.noConfusion hx2

theorem anyArrB_elim : ∀ {j : Json}, anyArrB j = true → ∃ xs, j = .arr xs
  | .arr xs, _ => ⟨xs, rfl⟩

theorem weather_step_ok {xs ys : List Json} (hstr : ∀ x ∈ xs, ∃ s, x = .str s)
    {i : Nat} (hi1 : i < xs.length) (hi2 : i < ys.length) (m : RMap) :
    ∃ m', weather_step (.arr xs) (.arr ys) m i = .ok m' := by
  unfold weather_step
  rcases hstr _ (List.getElem_mem hi1) with ⟨s, hs⟩
  simp [pySubNat_arr hi1, pySubNat_arr hi2, hs, fmt_date, hashKey]

theorem tempUpd_ok (zs : List Json) (i : Nat) (m1 : RMap) (k : String)
    (setf : Int → RawRec → RawRec) :
    ∃ m2, tempUpd (.arr zs) i m1 k setf = .ok m2 := by
  unfold tempUpd
  simp only [pyLen]
  by_cases h : i < zs.length
  · simp only [if_pos h, pySubNat_arr h]
    by_cases ht : pyTruthy zs[i] = true
    · cases hp : pyIntOf zs[i] with
      | ok t => simp [ht, hp]
      | error e => simp [ht, hp]
    · simp [ht]
  · simp [if_neg h]

theorem daily_step_ok {xs ms1 ms2 : List Json} (hstr : ∀ x ∈ xs, ∃ s, x = .str s)
    {i : Nat} (hi : i < xs.length) (m : RMap) :
    ∃ m', daily_step (.arr xs) (.arr ms1) (.arr ms2) m i = .ok m' := by
  unfold daily_step
  rcases hstr _ (List.getElem_mem hi) with ⟨s, hs⟩
  rcases tempUpd_ok ms1 i (rsetdefault m (match fromisoformat s with
    | some dt => fmtYmd dt
    | none => String.mk (s.data.take 10))) (match fromisoformat s with
    | some dt => fmtYmd dt
    | none => String.mk (s.data.take 10)) (fun t r => { r with min := some t }) with ⟨m2, hm2⟩
  rcases tempUpd_ok ms2 i m2 (match fromisoformat s with
    | some dt => fmtYmd dt
    | none => String.mk (s.data.take 10)) (fun t r => { r with max := some t }) with ⟨m3, hm3⟩
  simp [pySubNat_arr hi, hs, fmt_date, hashKey, hm2, hm3]

theorem hourly_step_ok {xs ys : List Json} (hstr : ∀ x ∈ xs, ∃ s, x = .str s)
    {i : Nat} (hi1 : i < xs.length) (hi2 : i < ys.length) (b : Bucket) :
    ∃ b', hourly_step (.arr xs) (.arr ys) b i = .ok b' := by
  unfold hourly_step
  rcases hstr _ (List.getElem_mem hi1) with ⟨s, hs⟩
  cases hp : pyIntOf ys[i] with
  | ok t => simp [pySubNat_arr hi1, pySubNat_arr hi2, hs, fmt_date, hashKey, hp]
  | error e => simp [pySubNat_arr hi1, pySubNat_arr hi2, hs, fmt_date, hashKey, hp]

theorem weather_fill_ok {wt ws : Json} (h1 : strArrB wt = true) (h2 : anyArrB ws = true)
    (m0 : RMap) : ∃ m', weather_fill wt ws m0 = .ok m' := by
  rcases strArrB_elim h1 with ⟨xs, rfl, hstr⟩
  rcases anyArrB_elim h2 with ⟨ys, rfl⟩
  unfold weather_fill
  simp only [pyLen]
  apply foldE_ok
  intro m i hi
  have hi' := List.mem_range.mp hi
  exact weather_step_ok hstr (lt_of_lt_of_le hi' (min_le_left _ _))
    (lt_of_lt_of_le hi' (min_le_right _ _)) m

theorem daily_fill_ok {td mins maxs : Json} (h1 : strArrB td = true)
    (h2 : anyArrB mins = true) (h3 : anyArrB maxs = true) (m0 : RMap) :
    ∃ m', daily_fill td mins maxs m0 = .ok m' := by
  rcases strArrB_elim h1 with ⟨xs, rfl, hstr⟩
  rcases anyArrB_elim h2 with ⟨ms1, rfl⟩
  rcases anyArrB_elim h3 with ⟨ms2, rfl⟩
  unfold daily_fill
  simp only [pyLen]
  apply foldE_ok
  intro m i hi
  exact daily_step_ok hstr (List.mem_range.mp hi) m

theorem hourly_bucket_ok {th temps : Json} (h1 : strArrB th = true)
    (h2 : anyArrB temps = true) : ∃ b, hourly_bucket th temps = .ok b := by
  rcases strArrB_elim h1 with ⟨xs, rfl, hstr⟩
  rcases anyArrB_elim h2 with ⟨ys, rfl⟩
  unfold hourly_bucket
  simp only [pyLen]
  apply foldE_ok
  intro b i hi
  have hi' := List.mem_range.mp hi
  exact hourly_step_ok hstr (lt_of_lt_of_le hi' (min_le_left _ _))
    (lt_of_lt_of_le hi' (min_le_right _ _)) b

theorem pick_series_ok {ts : Json} (h : safeSeriesB ts = true) :
    ∃ out, pick_series ts = .ok out := by
  rcases hw : tryWeather ts with ⟨wt, ws⟩
  rcases hd : tryDaily ts with ⟨td, mins, maxs⟩
  rcases hh : tryHourly ts with ⟨th, temps⟩
  unfold safeSeriesB at h
  rw [hw, hd, hh] at h
  simp only [Bool.and_eq_true] at h
  obtain ⟨⟨⟨⟨⟨⟨h1, h2⟩, h3⟩, h4⟩, h5⟩, h6⟩, h7⟩ := h
  unfold pick_series
  rw [hw, hd, hh]
  simp only
  rcases weather_fill_ok h1 h2 [] with ⟨m1, hm1⟩
  rcases daily_fill_ok h3 h4 h5 m1 with ⟨m2, hm2⟩
  rcases hourly_bucket_ok h6 h7 with ⟨b, hb⟩
  simp [hm1, hm2, hb]

/-! Lemmas for the hourly-fallback coverage property. -/

theorem bkeys_bappend_of_mem {b : Bucket} {k : String} (t : Int)
    (h : (b.map Prod.fst).contains k = true) :
    (bappend b k t).map Prod.fst = b.map Prod.fst := by
  unfold bappend
  rw [if_pos h, List.map_map]
  apply List.map_congr_left
  intro p _
  by_cases hp : p.1 = k <;> simp [hp]

theorem BOk_bappend {b : Bucket} (k : String) (t : Int) (hb : BOk b) : BOk (bappend b k t) := by
  rcases hb with ⟨hn, hne⟩
  by_cases h : (b.map Prod.fst).contains k = true
  · constructor
    · rw [bkeys_bappend_of_mem t h]; exact hn
    · intro p hp
      unfold bappend at hp
      rw [if_pos h] at hp
      rcases List.mem_map.mp hp with ⟨q, hq, he⟩
      by_cases hqk : q.1 = k
      · simp only [hqk, if_true] at he
        rw [← he]
        simp
      · simp only [hqk, if_false] at he
        rw [← he]
        exact hne q hq
  · unfold bappend
    rw [if_neg h]
    constructor
    · rw [List.map_append]
      simp only [List.map_cons, List.map_nil]
      rw [List.nodup_append]
      refine ⟨hn, List.nodup_singleton k, ?_⟩
      intro a ha hb2
      rcases List.mem_singleton.mp hb2 with rfl
      exact h (List.elem_iff.mpr ha)
    · intro p hp
      rcases List.mem_append.mp hp with h' | h'
      · exact hne p h'
      · rcases List.mem_singleton.mp h' with rfl
        simp

theorem BOk_hourly_step {th temps : Json} {b b' : Bucket} {i : Nat}
    (h : hourly_step th temps b i = .ok b') (hb : BOk b) : BOk b' := by
  unfold hourly_step at h
  repeat' split at h
  all_goals cases h
  all_goals first
    | exact hb
    | exact BOk_bappend _ _ hb

theorem BOk_empty : BOk [] :=
  ⟨List.nodup_nil, fun p hp => absurd hp (List.not_mem_nil p)⟩

theorem BOk_hourly_bucket {th temps : Json} {b : Bucket}
    (h : hourly_bucket th temps = .ok b) : BOk b := by
  unfold hourly_bucket at h
  repeat' split at h
  all_goals try (cases h; done)
  exact foldE_inv BOk _ _ _ _ (fun c a c' _ hc hs => BOk_hourly_step hs hc) BOk_empty h

theorem rget_rset_self {m : RMap} {k : String} (f : RawRec → RawRec)
    (h : k ∈ rkeys m) : rget (rset m k f) k = f (rget m k) := by
  induction m with
  | nil => cases h
  | cons p mt ih =>
      by_cases hp : p.1 = k
      · unfold rset rget
        simp [hp]
      · unfold rset rget
        simp only [List.map_cons, List.find?_cons, if_neg hp]
        have hbe : (p.1 == k) = false := by simp [hp]
        simp only [hbe]
        have hmem : k ∈ rkeys mt := by
          rcases List.mem_cons.mp h with he | hmt
          · exact absurd he.symm hp
          · exact hmt
        have := ih hmem
        unfold rset rget at this
        exact this

theorem rget_other {m : RMap} {k k2 : String} (f : RawRec → RawRec) (hne : k ≠ k2) :
    rget (rset m k2 f) k = rget m k := by
  induction m with
  | nil => rfl
  | cons p mt ih =>
      by_cases hp : p.1 = k2
      · unfold rset rget
        have hbe : (p.1 == k) = false := by simp [hp, Ne.symm hne]
        simp only [List.map_cons, if_pos hp, List.find?_cons, hbe]
        have := ih
        unfold rset rget at this
        exact this
      · unfold rset rget
        simp only [List.map_cons, if_neg hp, List.find?_cons]
        cases hbe : (p.1 == k) with
        | true => rfl
        | false =>
            have := ih
            unfold rset rget at this
            exact this

theorem rget_append_other {k k2 : String} (d : RawRec) (hne : k ≠ k2) :
    ∀ m : RMap, rget (m ++ [(k2, d)]) k = rget m k
  | [] => by
      unfold rget
      simp [Ne.symm hne]
  | p :: mt => by
      unfold rget
      simp only [List.cons_append, List.find?_cons]
      cases hbe : (p.1 == k) with
      | true => rfl
      | false =>
          have h2 := rget_append_other d hne mt
          unfold rget at h2
          exact h2

theorem rget_rsetdefault_other {m : RMap} {k k2 : String} (hne : k ≠ k2) :
    rget (rsetdefault m k2) k = rget m k := by
  unfold rsetdefault
  by_cases h : (rkeys m).contains k2 = true
  · rw [if_pos h]
  · rw [if_neg h]
    exact rget_append_other _ hne m

theorem mem_rkeys_self (m : RMap) (k : String) : k ∈ rkeys (rsetdefault m k) :=
  (mem_rkeys_rsetdefault m k k).mpr (Or.inr rfl)

theorem rkeys_bstep1 (m1 : RMap) (p : String × List Int) :
    rkeys (bstep1 m1 p) = rkeys m1 := by
  unfold bstep1
  split
  · rw [rkeys_rset]
  · rfl

theorem rkeys_bstep2 (m2 : RMap) (p : String × List Int) :
    rkeys (bstep2 m2 p) = rkeys m2 := by
  unfold bstep2
  split
  · rw [rkeys_rset]
  · rfl

theorem isEmpty_false_of_ne_nil {l : List Int} (h : l ≠ []) : l.isEmpty = false := by
  cases he : l.isEmpty
  · rfl
  · exact absurd (List.isEmpty_iff.mp he) h

theorem bstep1_min {m1 : RMap} {p : String × List Int} (hmem : p.1 ∈ rkeys m1)
    (hne : p.2 ≠ []) : ((rget (bstep1 m1 p) p.1).min).isSome = true := by
  unfold bstep1
  split
  · rw [rget_rset_self _ hmem]
    rfl
  · rename_i hc
    rw [isEmpty_false_of_ne_nil hne] at hc
    simp only [Bool.not_false, Bool.and_true] at hc
    cases ho : (rget m1 p.1).min
    · rw [ho] at hc; simp at hc
    · simp

theorem bstep1_max_eq {m1 : RMap} {p : String × List Int} (hmem : p.1 ∈ rkeys m1) :
    (rget (bstep1 m1 p) p.1).max = (rget m1 p.1).max := by
  unfold bstep1
  split
  · rw [rget_rset_self _ hmem]
  · rfl

theorem bstep2_min_eq {m2 : RMap} {p : String × List Int} (hmem : p.1 ∈ rkeys m2) :
    (rget (bstep2 m2 p) p.1).min = (rget m2 p.1).min := by
  unfold bstep2
  split
  · rw [rget_rset_self _ hmem]
  · rfl

theorem bstep2_max {m2 : RMap} {p : String × List Int} (hmem : p.1 ∈ rkeys m2)
    (hne : p.2 ≠ []) : ((rget (bstep2 m2 p) p.1).max).isSome = true := by
  unfold bstep2
  split
  · rw [rget_rset_self _ hmem]
    rfl
  · rename_i hc
    rw [isEmpty_false_of_ne_nil hne] at hc
    simp only [Bool.not_false, Bool.and_true] at hc
    cases ho : (rget m2 p.1).max
    · rw [ho] at hc; simp at hc
    · simp

theorem bucket_step_key {m : RMap} {p : String × List Int} (hne : p.2 ≠ []) :
    ((rget (bucket_step m p) p.1).min).isSome = true ∧
      ((rget (bucket_step m p) p.1).max).isSome = true := by
  unfold bucket_step
  have hm1 : p.1 ∈ rkeys (rsetdefault m p.1) := mem_rkeys_self m p.1
  have hm2 : p.1 ∈ rkeys (bstep1 (rsetdefault m p.1) p) := by
    rw [rkeys_bstep1]; exact hm1
  constructor
  · rw [bstep2_min_eq hm2]
    exact bstep1_min hm1 hne
  · exact bstep2_max hm2 hne

theorem bstep1_other {m1 : RMap} {p : String × List Int} {k : String}
    (hne : k ≠ p.1) : rget (bstep1 m1 p) k = rget m1 k := by
  unfold bstep1
  split
  · exact rget_other _ hne
  · rfl

theorem bstep2_other {m2 : RMap} {p : String × List Int} {k : String}
    (hne : k ≠ p.1) : rget (bstep2 m2 p) k = rget m2 k := by
  unfold bstep2
  split
  · exact rget_other _ hne
  · rfl

theorem bucket_step_other {m : RMap} {p : String × List Int} {k : String}
    (hne : k ≠ p.1) : rget (bucket_step m p) k = rget m k := by
  unfold bucket_step
  rw [bstep2_other hne, bstep1_other hne, rget_rsetdefault_other hne]

theorem bucket_fill_other : ∀ (b : Bucket) (m : RMap) (k : String),
    k ∉ b.map Prod.fst → rget (bucket_fill b m) k = rget m k
  | [], _, _, _ => rfl
  | p :: bt, m, k, h => by
      have hk1 : k ≠ p.1 := fun he => h (by rw [he]; exact List.mem_cons_self _ _)
      have hk2 : k ∉ bt.map Prod.fst := fun hm => h (List.mem_cons_of_mem _ hm)
      calc rget (bucket_fill (p :: bt) m) k
          = rget (bucket_fill bt (bucket_step m p)) k := rfl
        _ = rget (bucket_step m p) k := bucket_fill_other bt _ k hk2
        _ = rget m k := bucket_step_other hk1

theorem bucket_fill_covered : ∀ (b : Bucket) (m : RMap),
    (b.map Prod.fst).Nodup → (∀ p ∈ b, p.2 ≠ []) →
    ∀ k ∈ b.map Prod.fst,
      ((rget (bucket_fill b m) k).min).isSome = true ∧
        ((rget (bucket_fill b m) k).max).isSome = true
  | [], _, _, _, _, hk => absurd hk (List.not_mem_nil _)
  | p :: bt, m, hn, hne, k, hk => by
      rw [List.map_cons] at hk hn
      rcases List.mem_cons.mp hk with rfl | hk'
      · have hnotin : p.1 ∉ bt.map Prod.fst := (List.nodup_cons.mp hn).1
        have heq : rget (bucket_fill (p :: bt) m) p.1 = rget (bucket_step m p) p.1 :=
          bucket_fill_other bt _ p.1 hnotin
        rw [heq]
        exact bucket_step_key (hne p (List.mem_cons_self p bt))
      · exact bucket_fill_covered bt (bucket_step m p) (List.nodup_cons.mp hn).2
          (fun q hq => hne q (List.mem_cons_of_mem _ hq)) k hk'

theorem mem_finalize {m : RMap} {rec : DailyRecord} (h : rec ∈ finalize m) :
    ∃ k, k ∈ rkeys m ∧ rec = finalizeRec (rget m k) := by
  unfold finalize at h
  rcases List.mem_map.mp h with ⟨k, hk, he⟩
  exact ⟨k, (isortBy_perm strLe (rkeys m)).mem_iff.mp hk, he.symm⟩

/-! Claim theorems for the normalizer. -/

/-- C1: whenever the normalizer returns a list, that list has at most 6
records and its dates are strictly ascending in lexicographic order and
pairwise distinct.  (Inputs on which the normalizer raises instead of
returning are the subject of the C5 analysis.) -/
theorem c1_normalize_sorted (raw : Json) (out : List DailyRecord)
    (h : pick_daily_weather_and_temp raw = .ok out) :
    out.length ≤ 6 ∧
      (out.map (fun d => d.date)).Pairwise (fun a b => strLt a b = true) ∧
      (out.map (fun d => d.date)).Nodup :=
  ⟨(pick_sorted h).1, (pick_sorted h).2,
    (pick_sorted h).2.imp (fun hlt => ne_of_strLt hlt)⟩

/-- C1 witness: the sortedness conclusion instantiated at a concrete
two-day payload. -/
theorem c1_normalize_sorted_witness :
    ([⟨"2024-05-01", Json.str "晴れ", .sent, .sent⟩,
      ⟨"2024-05-02", Json.str "雨", .sent, .sent⟩] : List DailyRecord).length ≤ 6 ∧
      (([⟨"2024-05-01", Json.str "晴れ", .sent, .sent⟩,
        ⟨"2024-05-02", Json.str "雨", .sent, .sent⟩] : List DailyRecord).map
          (fun d => d.date)).Pairwise (fun a b => strLt a b = true) ∧
      (([⟨"2024-05-01", Json.str "晴れ", .sent, .sent⟩,
        ⟨"2024-05-02", Json.str "雨", .sent, .sent⟩] : List DailyRecord).map
          (fun d => d.date)).Nodup :=
  c1_normalize_sorted
    (.arr [.obj [("timeSeries", .arr [
      .obj [("timeDefines", .arr [.str "2024-05-01T00:00:00+09:00",
                                  .str "2024-05-02T00:00:00+09:00"]),
            ("areas", .arr [.obj [("weathers", .arr [.str "晴れ", .str "雨"])]])]])]])
    [⟨"2024-05-01", Json.str "晴れ", .sent, .sent⟩,
     ⟨"2024-05-02", Json.str "雨", .sent, .sent⟩] rfl

/-- C5 counterexample: a non-empty array whose first element is not an
object makes the normalizer raise `AttributeError` (kadai.py line 100,
`root.get` on a non-dict, outside every `try`), so it does not return a
list for every JSON value. -/
theorem c5_counterexample :
    pick_daily_weather_and_temp (.arr [.str "x"]) = .error .attributeError := rfl

/-- C5 (amended): the normalizer returns a (possibly partial) list without
raising on every safely-shaped payload — any non-array or empty array
(yielding `[]`), and any non-empty array whose first element is an object
whose extracted series are lists with string time entries (missing keys
and absent series included, as the extraction defaults are empty lists).
Outside that region it can raise, as the counterexample shows. -/
theorem c5_normalize_total_amended (raw : Json) :
    (safeRawB raw = true → ∃ out, pick_daily_weather_and_temp raw = .ok out) ∧
      ((∀ x xs, raw ≠ .arr (x :: xs)) → pick_daily_weather_and_temp raw = .ok []) := by
  constructor
  · intro h
    cases raw with
    | arr xs =>
        cases xs with
        | nil => exact ⟨[], rfl⟩
        | cons root rest =>
            unfold safeRawB at h
            simp only [Bool.and_eq_true] at h
            obtain ⟨hobj, hts⟩ := h
            cases root with
            | obj kvs =>
                unfold pick_daily_weather_and_temp
                simp only [tsOf] at hts ⊢
                exact pick_series_ok hts
            | null => exact Bool.noConfusion hobj
            | bool b => exact Bool.noConfusion hobj
            | num n => exact Bool.noConfusion hobj
            | str s => exact Bool.noConfusion hobj
            | arr a => exact Bool.noConfusion hobj
    | null => exact ⟨[], rfl⟩
    | bool b => exact ⟨[], rfl⟩
    | num n => exact ⟨[], rfl⟩
    | str s => exact ⟨[], rfl⟩
    | obj kvs => exact ⟨[], rfl⟩
  · intro h
    cases raw with
    | arr xs =>
        cases xs with
        | nil => rfl
        | cons x rest => exact absurd rfl (h x rest)
    | null => rfl
    | bool b => rfl
    | num n => rfl
    | str s => rfl
    | obj kvs => rfl

/-- C5 witness: the amended theorem applied at a safe payload (missing
keys and empty second/third series) and at a non-array value. -/
theorem c5_normalize_total_witness :
    (∃ out, pick_daily_weather_and_temp
      (.arr [.obj [("timeSeries", .arr [
        .obj [("timeDefines", .arr [.str "2024-05-01T00:00:00+09:00"]),
              ("areas", .arr [.obj [("weathers", .arr [.str "晴れ"])]])],
        .obj [], .obj []])]]) = .ok out) ∧
      pick_daily_weather_and_temp (.str "zzz") = .ok [] :=
  ⟨(c5_normalize_total_amended
      (.arr [.obj [("timeSeries", .arr [
        .obj [("timeDefines", .arr [.str "2024-05-01T00:00:00+09:00"]),
              ("areas", .arr [.obj [("weathers", .arr [.str "晴れ"])]])],
        .obj [], .obj []])]])).1 (by decide),
    (c5_normalize_total_amended (.str "zzz")).2 (by intro x xs hx; cases hx)⟩

/-- C7: on the spec's scenario payload the normalizer returns exactly one
record with the formatted date, the weather text, and sentinel min/max. -/
theorem c7_scenario :
    pick_daily_weather_and_temp
      (.arr [.obj [("timeSeries", .arr [
        .obj [("timeDefines", .arr [.str "2024-05-01T00:00:00+09:00"]),
              ("areas", .arr [.obj [("weathers", .arr [.str "晴れ"])]])],
        .obj [],
        .obj []])]]) =
      .ok [⟨"2024-05-01", .str "晴れ", .sent, .sent⟩] := rfl

/-- C6: when `timeSeries[2]` is missing entirely, every returned record
whose date is covered by the hourly bucket (at least one parseable hourly
temperature for that date in `timeSeries[1]`) carries non-sentinel min and
max, filled from that bucket. -/
theorem c6_hourly_fallback (root : Json) (rest : List Json) (ts : Json) (b : Bucket)
    (out : List DailyRecord)
    (hts : tsOf root = .ok ts)
    (hmiss : ∃ e, pySubNat ts 2 = .error e)
    (hb : hourly_bucket (tryHourly ts).1 (tryHourly ts).2 = .ok b)
    (hout : pick_daily_weather_and_temp (.arr (root :: rest)) = .ok out) :
    ∀ rec ∈ out, rec.date ∈ b.map Prod.fst →
      rec.min ≠ TempVal.sent ∧ rec.max ≠ TempVal.sent := by
  intro rec hrec hcov
  have hout2 : (match tsOf root with
      | Except.error e => Except.error e
      | Except.ok ts2 => pick_series ts2) = Except.ok out := hout
  rw [hts] at hout2
  have hout3 : pick_series ts = Except.ok out := hout2
  clear hout hout2
  unfold pick_series at hout3
  repeat' split at hout3
  all_goals try (cases hout3; done)
  rename_i x1 m1 heqw x2 m2 heqd x3 b2 heqb
  cases hout3
  have hb2 : b2 = b := by
    rw [heqb] at hb
    injection hb
  subst hb2
  have hrec2 : rec ∈ finalize (bucket_fill b2 m2) := List.take_subset _ _ hrec
  rcases mem_finalize hrec2 with ⟨k, hkmem, hrfl⟩
  have hK : KOk (bucket_fill b2 m2) :=
    KOk_bucket_fill b2 m2 (KOk_daily_fill heqd (KOk_weather_fill heqw KOk_empty))
  have hdate : rec.date = k := by rw [hrfl]; exact rget_date hK.2 k
  have hBOk := BOk_hourly_bucket heqb
  have hcov' : k ∈ b2.map Prod.fst := hdate ▸ hcov
  have hsome := bucket_fill_covered b2 m2 hBOk.1 hBOk.2 k hcov'
  constructor
  · rw [hrfl]
    rcases Option.isSome_iff_exists.mp hsome.1 with ⟨t, ht⟩
    simp [finalizeRec, ht]
  · rw [hrfl]
    rcases Option.isSome_iff_exists.mp hsome.2 with ⟨t, ht⟩
    simp [finalizeRec, ht]

/-- C6 witness: the conclusion instantiated at a payload with no
`timeSeries[2]` and two parseable hourly temperatures on one date. -/
theorem c6_hourly_fallback_witness :
    (⟨"2024-05-01", Json.str "晴れ", .val 15, .val 20⟩ : DailyRecord).min ≠ TempVal.sent ∧
      (⟨"2024-05-01", Json.str "晴れ", .val 15, .val 20⟩ : DailyRecord).max ≠ TempVal.sent :=
  c6_hourly_fallback
    (.obj [("timeSeries", .arr [
      .obj [("timeDefines", .arr [.str "2024-05-01T09:00:00+09:00"]),
            ("areas", .arr [.obj [("weathers", .arr [.str "晴れ"])]])],
      .obj [("timeDefines", .arr [.str "2024-05-01T09:00:00+09:00",
                                  .str "2024-05-01T12:00:00+09:00"]),
            ("areas", .arr [.obj [("temps", .arr [.str "15", .str "20"])]])]])])
    []
    (.arr [
      .obj [("timeDefines", .arr [.str "2024-05-01T09:00:00+09:00"]),
            ("areas", .arr [.obj [("weathers", .arr [.str "晴れ"])]])],
      .obj [("timeDefines", .arr [.str "2024-05-01T09:00:00+09:00",
                                  .str "2024-05-01T12:00:00+09:00"]),
            ("areas", .arr [.obj [("temps", .arr [.str "15", .str "20"])]])]])
    [("2024-05-01", [15, 20])]
    [⟨"2024-05-01", Json.str "晴れ", .val 15, .val 20⟩]
    rfl ⟨.indexError, rfl⟩ rfl rfl
    ⟨"2024-05-01", Json.str "晴れ", .val 15, .val 20⟩
    (List.mem_singleton.mpr rfl)
    (by decide)

/-! Lemmas about the store: insert-if-absent and save. -/

theorem insertIgnore_subset {rows : List Row} {r q : Row} (h : q ∈ rows) :
    q ∈ insertIgnore rows r := by
  unfold insertIgnore
  split
  · exact h
  · exact List.mem_append.mpr (Or.inl h)

theorem hasTriple_mono {rows rows2 : List Row} (hsub : ∀ q ∈ rows, q ∈ rows2)
    {c d r : String} (h : hasTriple rows c d r = true) : hasTriple rows2 c d r = true := by
  unfold hasTriple at h ⊢
  rcases List.any_eq_true.mp h with ⟨q, hq, hqp⟩
  exact List.any_eq_true.mpr ⟨q, hsub q hq, hqp⟩

theorem hasTriple_insertIgnore_self (rows : List Row) (r : Row) :
    hasTriple (insertIgnore rows r) r.office_code r.forecast_date r.report_datetime = true := by
  unfold insertIgnore
  split
  · assumption
  · unfold hasTriple
    apply List.any_eq_true.mpr
    exact ⟨r, List.mem_append.mpr (Or.inr (List.mem_singleton.mpr rfl)), by simp⟩

theorem save_cons_inv {d : DailyRecord} {ds : List DailyRecord} {rows rows2 : List Row}
    {code : String} {rdt : Json}
    (h : save_forecasts rows code rdt (d :: ds) = .ok rows2) :
    ∃ w rdtS, bindDbText d.weather = .ok w ∧ bindRdtText rdt = .ok rdtS ∧
      save_forecasts (insertIgnore rows ⟨code, d.date, rdtS, w, tval d.min, tval d.max⟩)
        code rdt ds = .ok rows2 := by
  unfold save_forecasts at h
  repeat' split at h
  all_goals try (cases h; done)
  rename_i x1 w hw x2 rdtS hrds
  exact ⟨w, rdtS, hw, hrds, h⟩

theorem save_subset : ∀ {ds : List DailyRecord} {rows rows2 : List Row} {code : String}
    {rdt : Json}, save_forecasts rows code rdt ds = .ok rows2 → ∀ q ∈ rows, q ∈ rows2
  | [], _, _, _, _, h, q, hq => by cases h; exact hq
  | _ :: _, _, _, _, _, h, q, hq => by
      rcases save_cons_inv h with ⟨w, rdtS, _, _, hrest⟩
      exact save_subset hrest q (insertIgnore_subset hq)

theorem save_weather_ok : ∀ {ds : List DailyRecord} {rows rows2 : List Row} {code : String}
    {rdt : Json}, save_forecasts rows code rdt ds = .ok rows2 →
    ∀ d ∈ ds, ∃ w, bindDbText d.weather = .ok w
  | [], _, _, _, _, _, d, hd => absurd hd (List.not_mem_nil d)
  | d0 :: dt, _, _, _, _, h, d, hd => by
      rcases save_cons_inv h with ⟨w, rdtS, hw, _, hrest⟩
      rcases List.mem_cons.mp hd with rfl | hd'
      · exact ⟨w, hw⟩
      · exact save_weather_ok hrest d hd'

theorem save_rdt_ok {d : DailyRecord} {ds : List DailyRecord} {rows rows2 : List Row}
    {code : String} {rdt : Json}
    (h : save_forecasts rows code rdt (d :: ds) = .ok rows2) :
    ∃ rdtS, bindRdtText rdt = .ok rdtS := by
  rcases save_cons_inv h with ⟨w, rdtS, _, hrds, _⟩
  exact ⟨rdtS, hrds⟩

theorem save_mem : ∀ {ds : List DailyRecord} {rows rows2 : List Row} {code : String}
    {rdt : Json} {rdtS : String}, save_forecasts rows code rdt ds = .ok rows2 →
    bindRdtText rdt = .ok rdtS → ∀ d ∈ ds, hasTriple rows2 code d.date rdtS = true
  | [], _, _, _, _, _, _, _, d, hd => absurd hd (List.not_mem_nil d)
  | d0 :: dt, rows, rows2, code, rdt, rdtS, h, hrds, d, hd => by
      rcases save_cons_inv h with ⟨w, rdtS2, hw, hrds2, hrest⟩
      have he : rdtS2 = rdtS := by
        rw [hrds2] at hrds
        injection hrds
      subst he
      rcases List.mem_cons.mp hd with rfl | hd'
      · apply hasTriple_mono (save_subset hrest)
        exact hasTriple_insertIgnore_self rows
          ⟨code, d.date, rdtS2, w, tval d.min, tval d.max⟩
      · exact save_mem hrest hrds d hd'

theorem save_of_all_present : ∀ (ds : List DailyRecord) (t : List Row) (code : String)
    (rdt : Json) (rdtS : String), bindRdtText rdt = .ok rdtS →
    (∀ d ∈ ds, ∃ w, bindDbText d.weather = .ok w) →
    (∀ d ∈ ds, hasTriple t code d.date rdtS = true) →
    save_forecasts t code rdt ds = .ok t
  | [], _, _, _, _, _, _, _ => rfl
  | d :: dt, t, code, rdt, rdtS, hrds, hws, hts => by
      rcases hws d (List.mem_cons_self d dt) with ⟨w, hw⟩
      have hnoop : insertIgnore t ⟨code, d.date, rdtS, w, tval d.min, tval d.max⟩ = t := by
        unfold insertIgnore
        rw [if_pos (hts d (List.mem_cons_self d dt))]
      unfold save_forecasts
      simp only [hw, hrds, hnoop]
      exact save_of_all_present dt t code rdt rdtS hrds
        (fun d2 hd2 => hws d2 (List.mem_cons_of_mem _ hd2))
        (fun d2 hd2 => hts d2 (List.mem_cons_of_mem _ hd2))

/-- C2: saving a snapshot is idempotent — replaying `save_forecasts` with
identical arguments returns the stored table unchanged (hence the row
count for the `(office_code, report_datetime)` snapshot is unchanged), and
re-inserting any row whose `(office_code, forecast_date, report_datetime)`
triple already exists is a no-op, never an update. -/
theorem c2_save_idempotent (rows : List Row) (code : String) (rdt : Json)
    (ds : List DailyRecord) (rows2 : List Row)
    (h : save_forecasts rows code rdt ds = .ok rows2) :
    save_forecasts rows2 code rdt ds = .ok rows2 ∧
      ∀ r : Row, hasTriple rows2 r.office_code r.forecast_date r.report_datetime = true →
        insertIgnore rows2 r = rows2 := by
  constructor
  · cases ds with
    | nil => cases h; rfl
    | cons d dt =>
        rcases save_rdt_ok h with ⟨rdtS, hrds⟩
        exact save_of_all_present (d :: dt) rows2 code rdt rdtS hrds
          (save_weather_ok h) (save_mem h hrds)
  · intro r hr
    unfold insertIgnore
    rw [if_pos hr]

/-- C2 witness: a second identical save of a one-record snapshot returns
the one-row table unchanged. -/
theorem c2_save_idempotent_witness :
    save_forecasts [⟨"130000", "2024-05-01", "R1", some "晴れ", some 1, none⟩]
        "130000" (.str "R1") [⟨"2024-05-01", .str "晴れ", .val 1, .sent⟩] =
      .ok [⟨"130000", "2024-05-01", "R1", some "晴れ", some 1, none⟩] ∧
      ∀ r : Row,
        hasTriple [⟨"130000", "2024-05-01", "R1", some "晴れ", some 1, none⟩]
          r.office_code r.forecast_date r.report_datetime = true →
        insertIgnore [⟨"130000", "2024-05-01", "R1", some "晴れ", some 1, none⟩] r =
          [⟨"130000", "2024-05-01", "R1", some "晴れ", some 1, none⟩] :=
  c2_save_idempotent [] "130000" (.str "R1") [⟨"2024-05-01", .str "晴れ", .val 1, .sent⟩]
    [⟨"130000", "2024-05-01", "R1", some "晴れ", some 1, none⟩] rfl

/-! Lemmas for the save/load round trip. -/

theorem save_append : ∀ (ds : List DailyRecord) (acc : List Row) (code rdtS : String),
    (∀ d ∈ ds, ∃ s, d.weather = .str s) →
    (ds.map (fun d => d.date)).Nodup →
    (∀ d ∈ ds, hasTriple acc code d.date rdtS = false) →
    save_forecasts acc code (.str rdtS) ds =
      .ok (acc ++ ds.map (fun d =>
        (⟨code, d.date, rdtS, some (weatherObs d.weather), tval d.min, tval d.max⟩ : Row)))
  | [], acc, _, _, _, _, _ => by simp [save_forecasts]
  | d :: dt, acc, code, rdtS, hws, hnd, habs => by
      rcases hws d (List.mem_cons_self d dt) with ⟨s, hs⟩
      have hwob : weatherObs d.weather = s := by rw [hs]; rfl
      have hins : insertIgnore acc
          ⟨code, d.date, rdtS, some s, tval d.min, tval d.max⟩ =
          acc ++ [⟨code, d.date, rdtS, some s, tval d.min, tval d.max⟩] := by
        unfold insertIgnore
        rw [if_neg]
        rw [habs d (List.mem_cons_self d dt)]
        exact Bool.false_ne_true
      have hnotin : d.date ∉ dt.map (fun d2 => d2.date) := by
        rw [List.map_cons] at hnd
        exact (List.nodup_cons.mp hnd).1
      have habs2 : ∀ d2 ∈ dt,
          hasTriple (acc ++ [⟨code, d.date, rdtS, some s, tval d.min, tval d.max⟩])
            code d2.date rdtS = false := by
        intro d2 hd2
        unfold hasTriple
        rw [List.any_append]
        have h1 : hasTriple acc code d2.date rdtS = false := habs d2 (List.mem_cons_of_mem _ hd2)
        unfold hasTriple at h1
        rw [h1]
        simp only [Bool.false_or, List.any_cons, List.any_nil, Bool.or_false]
        have hne : d.date ≠ d2.date := by
          intro he
          exact hnotin (he ▸ List.mem_map_of_mem (fun d2 => d2.date) hd2)
        simp [hne]
      have hrec := save_append dt
        (acc ++ [⟨code, d.date, rdtS, some s, tval d.min, tval d.max⟩]) code rdtS
        (fun d2 hd2 => hws d2 (List.mem_cons_of_mem _ hd2))
        (by rw [List.map_cons] at hnd; exact (List.nodup_cons.mp hnd).2)
        habs2
      unfold save_forecasts
      simp only [hs, bindDbText, bindRdtText, hins]
      rw [hrec]
      simp [hwob, List.append_assoc]

/-- C8 counterexample: a normalizer output whose weather is the empty
string does not round-trip — `load_forecasts` reconstitutes the falsy
stored weather as the sentinel `"-"` (`row["weather"] or "-"`), so the
loaded records differ from the saved ones. -/
theorem c8_counterexample :
    pick_daily_weather_and_temp
        (.arr [.obj [("timeSeries", .arr [
          .obj [("timeDefines", .arr [.str "2024-05-01T00:00:00+09:00"]),
                ("areas", .arr [.obj [("weathers", .arr [.str ""])]])]])]]) =
      .ok [⟨"2024-05-01", .str "", .sent, .sent⟩] ∧
    save_forecasts [] "130000" (.str "2024-05-01T05:00:00+09:00")
        [⟨"2024-05-01", .str "", .sent, .sent⟩] =
      .ok [⟨"130000", "2024-05-01", "2024-05-01T05:00:00+09:00", some "", none, none⟩] ∧
    load_forecasts [⟨"130000", "2024-05-01", "2024-05-01T05:00:00+09:00", some "", none, none⟩]
        "130000" "2024-05-01T05:00:00+09:00" 6 ≠
      [⟨"2024-05-01", .str "", .sent, .sent⟩] :=
  ⟨rfl, rfl, fun h =>
    absurd (congrArg (fun l => l.map (fun d => weatherObs d.weather)) h) (by decide)⟩

/-- C8 (amended): a record list produced by the normalizer and saved into
an empty store round-trips exactly through `load` — ascending by date,
capped at the day limit, sentinels reconstituted — provided every record's
weather is a non-empty string (the normal case; the default is `"-"`).
In general the weather field is reconstituted through the store's text
conversion, which maps falsy values (empty string, NULL) to `"-"`, as the
counterexample shows. -/
theorem c8_roundtrip_amended (raw : Json) (ds : List DailyRecord) (code rdtS : String)
    (rows : List Row)
    (hpick : pick_daily_weather_and_temp raw = .ok ds)
    (hw : ∀ d ∈ ds, ∃ s, d.weather = .str s ∧ s ≠ "")
    (hsave : save_forecasts [] code (.str rdtS) ds = .ok rows) :
    load_forecasts rows code rdtS 6 = ds := by
  have hsorted := pick_sorted hpick
  have hnd : (ds.map (fun d => d.date)).Nodup :=
    hsorted.2.imp (fun hlt => ne_of_strLt hlt)
  have hrows0 := save_append ds [] code rdtS
    (fun d hd => (hw d hd).imp (fun s hs => hs.1)) hnd (fun d hd => rfl)
  rw [hsave] at hrows0
  have hrows : rows = ds.map (fun d =>
      (⟨code, d.date, rdtS, some (weatherObs d.weather), tval d.min, tval d.max⟩ : Row)) := by
    injection hrows0
  subst hrows
  unfold load_forecasts
  have hfil : (ds.map (fun d =>
      (⟨code, d.date, rdtS, some (weatherObs d.weather), tval d.min, tval d.max⟩ : Row))).filter
        (fun r => r.office_code == code && r.report_datetime == rdtS) =
      ds.map (fun d =>
        (⟨code, d.date, rdtS, some (weatherObs d.weather), tval d.min, tval d.max⟩ : Row)) := by
    apply List.filter_eq_self.mpr
    intro r hrm
    rcases List.mem_map.mp hrm with ⟨d, hd, he⟩
    rw [← he]
    simp
  rw [hfil]
  have hpw : (ds.map (fun d =>
      (⟨code, d.date, rdtS, some (weatherObs d.weather), tval d.min, tval d.max⟩ : Row))).Pairwise
        (fun a b => leDate a b = true) := by
    rw [List.pairwise_map]
    have hps := hsorted.2
    rw [List.pairwise_map] at hps
    exact hps.imp (fun h => strLe_of_strLt h)
  rw [isortBy_eq_of_pairwise _ _ hpw]
  have hlen : (ds.map (fun d =>
      (⟨code, d.date, rdtS, some (weatherObs d.weather), tval d.min, tval d.max⟩ : Row))).length ≤ 6 := by
    rw [List.length_map]
    exact hsorted.1
  rw [List.take_of_length_le hlen, List.map_map]
  apply map_eq_self
  intro d hd
  rcases hw d hd with ⟨s, hs, hne⟩
  cases d with
  | mk date w mn mx =>
      simp only at hs
      subst hs
      cases mn <;> cases mx <;>
        simp [Function.comp, weatherObs, tval, hne]

/-- C8 witness: the amended round trip at a one-record snapshot with
non-empty weather. -/
theorem c8_roundtrip_witness :
    load_forecasts [⟨"130000", "2024-05-01", "R1", some "晴れ", none, none⟩]
        "130000" "R1" 6 =
      [⟨"2024-05-01", .str "晴れ", .sent, .sent⟩] :=
  c8_roundtrip_amended
    (.arr [.obj [("timeSeries", .arr [
      .obj [("timeDefines", .arr [.str "2024-05-01T00:00:00+09:00"]),
            ("areas", .arr [.obj [("weathers", .arr [.str "晴れ"])]])]])]])
    [⟨"2024-05-01", .str "晴れ", .sent, .sent⟩] "130000" "R1"
    [⟨"130000", "2024-05-01", "R1", some "晴れ", none, none⟩]
    rfl
    (by
      intro d hd
      rcases List.mem_singleton.mp hd with rfl
      exact ⟨"晴れ", rfl, by decide⟩)
    rfl

/-! Lemmas about `MAX(report_datetime)`, the history list and freshness. -/

theorem smax?_eq_none : ∀ {l : List String}, smax? l = none → l = []
  | [], _ => rfl
  | x :: xs, h => by
      unfold smax? at h
      cases hs : smax? xs <;> rw [hs] at h <;> cases h

theorem smax?_mem : ∀ {l : List String} {m : String}, smax? l = some m → m ∈ l
  | [], _, h => by cases h
  | x :: xs, m, h => by
      unfold smax? at h
      cases hs : smax? xs with
      | none =>
          rw [hs] at h
          injection h with h
          exact h ▸ List.mem_cons_self x xs
      | some m2 =>
          rw [hs] at h
          injection h with h
          by_cases hle : strLe x m2 = true
          · rw [if_pos hle] at h
            exact h ▸ List.mem_cons_of_mem x (smax?_mem hs)
          · rw [if_neg hle] at h
            exact h ▸ List.mem_cons_self x xs

theorem smax?_le : ∀ {l : List String} {m : String}, smax? l = some m →
    ∀ x ∈ l, strLe x m = true
  | [], _, _, x, hx => absurd hx (List.not_mem_nil x)
  | y :: ys, m, h, x, hx => by
      unfold smax? at h
      cases hs : smax? ys with
      | none =>
          rw [hs] at h
          injection h with h
          subst h
          rcases List.mem_cons.mp hx with rfl | hx'
          · exact strLe_refl x
          · rw [smax?_eq_none hs] at hx'
            exact absurd hx' (List.not_mem_nil x)
      | some m2 =>
          rw [hs] at h
          injection h with h
          rcases List.mem_cons.mp hx with rfl | hx'
          · by_cases hle : strLe x m2 = true
            · rw [if_pos hle] at h
              exact h ▸ hle
            · rw [if_neg hle] at h
              exact h ▸ strLe_refl x
          · have hym2 := smax?_le hs x hx'
            by_cases hle : strLe y m2 = true
            · rw [if_pos hle] at h
              exact h ▸ hym2
            · rw [if_neg hle] at h
              rcases strLe_total y m2 with h2 | h2
              · exact absurd h2 hle
              · exact h ▸ strLe_trans x m2 y hym2 h2

theorem latest_some_elim {rows : List Row} {code l : String}
    (h : latest_report_dt rows code = some l) :
    smax? ((rows.filter (fun r => r.office_code == code)).map (·.report_datetime)) = some l ∧
      l ≠ "" := by
  unfold latest_report_dt at h
  cases hs : smax? ((rows.filter (fun r => r.office_code == code)).map (·.report_datetime)) with
  | none => rw [hs] at h; cases h
  | some m =>
      rw [hs] at h
      have h2 : (if m = "" then (none : Option String) else some m) = some l := h
      by_cases hm : m = ""
      · rw [if_pos hm] at h2; cases h2
      · rw [if_neg hm] at h2
        injection h2 with h2
        subst h2
        exact ⟨rfl, hm⟩

theorem geB_total (a b : String) :
    (fun a b => strLe b a) a b = true ∨ (fun a b => strLe b a) b a = true := by
  rcases strLe_total b a with h | h
  · exact Or.inl h
  · exact Or.inr h

theorem geB_trans (a b c : String) :
    (fun a b => strLe b a) a b = true → (fun a b => strLe b a) b c = true →
      (fun a b => strLe b a) a c = true := by
  intro h1 h2
  exact strLe_trans c b a h2 h1

theorem history_head {rows : List Row} {code l : String} {limit : Nat} (hpos : 0 < limit)
    (h : latest_report_dt rows code = some l) :
    (get_report_history rows code limit).head? = some l ∧
      l ∈ get_report_history rows code limit := by
  rcases latest_some_elim h with ⟨hs, _⟩
  have hmem : l ∈ ((rows.filter (fun r => r.office_code == code)).map
      (·.report_datetime)).dedup := List.mem_dedup.mpr (smax?_mem hs)
  have hmem2 : l ∈ isortBy (fun a b => strLe b a)
      ((rows.filter (fun r => r.office_code == code)).map (·.report_datetime)).dedup :=
    ((isortBy_perm _ _).mem_iff).mpr hmem
  have hpw := isortBy_pairwise (fun a b => strLe b a) geB_total geB_trans
    ((rows.filter (fun r => r.office_code == code)).map (·.report_datetime)).dedup
  cases hsort : isortBy (fun a b => strLe b a)
      ((rows.filter (fun r => r.office_code == code)).map (·.report_datetime)).dedup with
  | nil => rw [hsort] at hmem2; exact absurd hmem2 (List.not_mem_nil l)
  | cons h0 t =>
      rw [hsort] at hmem2 hpw
      have hh0mem : h0 ∈ ((rows.filter (fun r => r.office_code == code)).map
          (·.report_datetime)).dedup := by
        have : h0 ∈ isortBy (fun a b => strLe b a)
            ((rows.filter (fun r => r.office_code == code)).map (·.report_datetime)).dedup := by
          rw [hsort]; exact List.mem_cons_self h0 t
        exact ((isortBy_perm _ _).mem_iff).mp this
      have hle1 : strLe h0 l = true :=
        smax?_le hs h0 (List.mem_dedup.mp hh0mem)
      have hle2 : strLe l h0 = true := by
        rcases List.mem_cons.mp hmem2 with rfl | hmem3
        · exact strLe_refl l
        · exact (List.pairwise_cons.mp hpw).1 l hmem3
      have he : h0 = l := strLe_antisymm h0 l hle1 hle2
      subst he
      rcases Nat.exists_eq_add_of_lt hpos with ⟨n, hn⟩
      unfold get_report_history
      rw [hsort, hn]
      simp only [Nat.zero_add, List.take_succ_cons]
      exact ⟨rfl, List.mem_cons_self h0 _⟩

theorem rebuild_dd_sel {hist : List String} {l : String} (hne : l ≠ "") (hmem : l ∈ hist) :
    rebuild_dd hist (some (.str l)) = some l := by
  show (if l ≠ "" ∧ l ∈ hist then some l else hist.head?) = some l
  rw [if_pos ⟨hne, hmem⟩]

theorem is_fresh_of_parse {clk : Clock} {l : String} {dt : PyDateTime} {minutes : Int}
    (h : parse_iso_dt l = some dt) :
    is_fresh clk l minutes = decide (freshDiffSec clk dt ≤ minutes * 60) := by
  unfold is_fresh
  rw [h]

theorem is_fresh_none {clk : Clock} {l : String} {minutes : Int}
    (h : parse_iso_dt l = none) : is_fresh clk l minutes = false := by
  unfold is_fresh
  rw [h]

/-! Orchestrator lemmas and claim theorems. -/

theorem noFaults_false (s : Site) : ¬ noFaults s = true := fun hc => Bool.false_ne_true hc

theorem fss_unfold {env : Env} {st : Store} {force : Bool} {fetch : Except PyErr Json}
    {f : Site → Bool} (hcode : env.code ≠ "") (hname : env.name ≠ "")
    (hnf : f .latestPre = false) :
    fetch_save_and_show env st force fetch f =
      after_latest env st force fetch f (latest_report_dt st.forecasts env.code) := by
  unfold fetch_save_and_show
  rw [if_neg (not_or.mpr ⟨hcode, hname⟩),
    if_neg (fun hc => Bool.false_ne_true (hnf ▸ hc))]

theorem cache_eval {env : Env} {st : Store} {l : String}
    (hlatest : latest_report_dt st.forecasts env.code = some l) :
    cache_view env st noFaults l =
      .ok (st, some ⟨.cache, some l, some (load_forecasts st.forecasts env.code l 6)⟩) := by
  rcases history_head (show (0 : Nat) < 30 by decide) hlatest with ⟨_, hhm⟩
  rcases latest_some_elim hlatest with ⟨_, hne⟩
  unfold cache_view
  rw [if_neg (noFaults_false _), rebuild_dd_sel hne hhm]
  simp only [cache_render]
  rw [if_neg (noFaults_false _)]

theorem except_fallback_ok (env : Env) (st : Store) :
    ∃ u, except_fallback env st noFaults = .ok u := by
  unfold except_fallback
  rw [if_neg (noFaults_false _), if_neg (noFaults_false _)]
  cases hdd : rebuild_dd (get_report_history st.forecasts env.code 30)
      ((latest_report_dt st.forecasts env.code).map Json.str) with
  | none => exact ⟨_, rfl⟩
  | some v =>
      simp only [fallback_render]
      rw [if_neg (noFaults_false _)]
      exact ⟨_, rfl⟩

/-- C3: with no force-refresh, a stored latest report whose parsed time is
within 10 minutes of now (boundary inclusive) is served from the cache —
tagged as cache with that snapshot's loaded records, identically for every
possible fetch result, so no network fetch is consulted; strictly beyond
10 minutes the call runs the fetch branch. -/
theorem c3_freshness_boundary (env : Env) (st : Store) (l : String) (dt : PyDateTime)
    (fetch fetchB : Except PyErr Json)
    (hcode : env.code ≠ "") (hname : env.name ≠ "")
    (hlatest : latest_report_dt st.forecasts env.code = some l)
    (hparse : parse_iso_dt l = some dt) :
    (freshDiffSec env.clk dt ≤ 10 * 60 →
      fetch_save_and_show env st false fetch noFaults =
        .ok (st, some ⟨.cache, some l, some (load_forecasts st.forecasts env.code l 6)⟩) ∧
      fetch_save_and_show env st false fetch noFaults =
        fetch_save_and_show env st false fetchB noFaults) ∧
    (10 * 60 < freshDiffSec env.clk dt →
      fetch_save_and_show env st false fetch noFaults =
        (fetch_branch env st fetch noFaults).map (fun p => (p.1, some p.2))) := by
  have hun : ∀ g : Except PyErr Json, fetch_save_and_show env st false g noFaults =
      after_latest env st false g noFaults (some l) := by
    intro g
    rw [fss_unfold hcode hname rfl, hlatest]
  constructor
  · intro hle
    have hfresh : is_fresh env.clk l 10 = true := by
      rw [is_fresh_of_parse hparse]
      exact decide_eq_true hle
    have hcache : ∀ g : Except PyErr Json, fetch_save_and_show env st false g noFaults =
        .ok (st, some ⟨.cache, some l, some (load_forecasts st.forecasts env.code l 6)⟩) := by
      intro g
      rw [hun g]
      simp only [after_latest]
      rw [if_pos ⟨Bool.false_ne_true, hfresh⟩]
      exact cache_eval hlatest
    exact ⟨hcache fetch, (hcache fetch).trans (hcache fetchB).symm⟩
  · intro hgt
    have hfr : is_fresh env.clk l 10 = false := by
      rw [is_fresh_of_parse hparse]
      exact decide_eq_false (not_le.mpr hgt)
    rw [hun fetch]
    simp only [after_latest]
    rw [if_neg (fun hc => Bool.false_ne_true (hfr ▸ hc.2))]

/-- C3 witness: a snapshot whose report time is exactly 10 minutes before
now is served as cache even when the fetch provider would fail. -/
theorem c3_freshness_boundary_witness :
    fetch_save_and_show
        ⟨"130000", "Tokyo", none, none, ⟨1714507800, 0⟩, "NOWUTC", "NOWLOC"⟩
        ⟨[], [⟨"130000", "2024-05-01", "2024-05-01T05:00:00+09:00",
              some "晴れ", some 15, some 25⟩]⟩
        false (.error .valueError) noFaults =
      .ok (⟨[], [⟨"130000", "2024-05-01", "2024-05-01T05:00:00+09:00",
              some "晴れ", some 15, some 25⟩]⟩,
        some ⟨.cache, some "2024-05-01T05:00:00+09:00",
          some (load_forecasts
            [⟨"130000", "2024-05-01", "2024-05-01T05:00:00+09:00",
              some "晴れ", some 15, some 25⟩] "130000" "2024-05-01T05:00:00+09:00" 6)⟩) :=
  ((c3_freshness_boundary
      ⟨"130000", "Tokyo", none, none, ⟨1714507800, 0⟩, "NOWUTC", "NOWLOC"⟩
      ⟨[], [⟨"130000", "2024-05-01", "2024-05-01T05:00:00+09:00",
            some "晴れ", some 15, some 25⟩]⟩
      "2024-05-01T05:00:00+09:00" ⟨2024, 5, 1, 5, 0, 0, some 540⟩
      (.error .valueError) (.ok .null)
      (by decide) (by decide) rfl rfl).1 (by decide)).1

/-- C10 (implicit): a stored latest report whose text does not parse as a
timestamp is never fresh, so a non-force call never serves it from cache
and always proceeds to the fetch branch. -/
theorem c10_unparseable_latest (env : Env) (st : Store) (l : String)
    (fetch : Except PyErr Json) (minutes : Int)
    (hcode : env.code ≠ "") (hname : env.name ≠ "")
    (hlatest : latest_report_dt st.forecasts env.code = some l)
    (hparse : parse_iso_dt l = none) :
    is_fresh env.clk l minutes = false ∧
      fetch_save_and_show env st false fetch noFaults =
        (fetch_branch env st fetch noFaults).map (fun p => (p.1, some p.2)) := by
  refine ⟨is_fresh_none hparse, ?_⟩
  rw [fss_unfold hcode hname rfl, hlatest]
  simp only [after_latest]
  rw [if_neg (fun hc => Bool.false_ne_true ((is_fresh_none hparse) ▸ hc.2))]

/-- C10 witness: a garbage latest timestamp is not fresh and the call runs
the fetch branch. -/
theorem c10_unparseable_latest_witness :
    is_fresh ⟨0, 0⟩ "not-a-date" 10 = false ∧
      fetch_save_and_show
          ⟨"130000", "Tokyo", none, none, ⟨0, 0⟩, "NOWUTC", "NOWLOC"⟩
          ⟨[], [⟨"130000", "2024-05-01", "not-a-date", some "晴れ", none, none⟩]⟩
          false (.error .valueError) noFaults =
        (fetch_branch
            ⟨"130000", "Tokyo", none, none, ⟨0, 0⟩, "NOWUTC", "NOWLOC"⟩
            ⟨[], [⟨"130000", "2024-05-01", "not-a-date", some "晴れ", none, none⟩]⟩
            (.error .valueError) noFaults).map (fun p => (p.1, some p.2)) :=
  c10_unparseable_latest
    ⟨"130000", "Tokyo", none, none, ⟨0, 0⟩, "NOWUTC", "NOWLOC"⟩
    ⟨[], [⟨"130000", "2024-05-01", "not-a-date", some "晴れ", none, none⟩]⟩
    "not-a-date" (.error .valueError) 10 (by decide) (by decide) rfl rfl

/-- C4: a fetch failure never propagates out of `fetch_save_and_show`
(absent storage faults): with a prior snapshot the call falls back to the
latest stored snapshot's data tagged stale-fallback; with no rows for the
office it yields no rendered data under the stale-fallback (error-status)
condition; and the whole call returns normally for every force flag. -/
theorem c4_fetch_failure_fallback (env : Env) (st : Store) (e : PyErr)
    (hcode : env.code ≠ "") (hname : env.name ≠ "") :
    (∀ l, latest_report_dt st.forecasts env.code = some l →
      fetch_branch env st (.error e) noFaults =
        .ok (st, ⟨.staleFallback, some l,
          some (load_forecasts st.forecasts env.code l 6)⟩)) ∧
    (st.forecasts.filter (fun r => r.office_code == env.code) = [] →
      fetch_branch env st (.error e) noFaults = .ok (st, ⟨.staleFallback, none, none⟩)) ∧
    (∀ force, ∃ r, fetch_save_and_show env st force (.error e) noFaults = .ok r) := by
  have hfb : fetch_branch env st (.error e) noFaults = except_fallback env st noFaults := rfl
  refine ⟨?_, ?_, ?_⟩
  · intro l hl
    rcases history_head (show (0 : Nat) < 30 by decide) hl with ⟨_, hhm⟩
    rcases latest_some_elim hl with ⟨_, hne⟩
    rw [hfb]
    unfold except_fallback
    rw [if_neg (noFaults_false _), if_neg (noFaults_false _), hl]
    simp only [Option.map_some']
    rw [rebuild_dd_sel hne hhm]
    simp only [fallback_render]
    rw [if_neg (noFaults_false _)]
  · intro hfil
    have hl : latest_report_dt st.forecasts env.code = none := by
      unfold latest_report_dt
      rw [hfil]
      rfl
    have hh : get_report_history st.forecasts env.code 30 = [] := by
      unfold get_report_history
      rw [hfil]
      rfl
    rw [hfb]
    unfold except_fallback
    rw [if_neg (noFaults_false _), if_neg (noFaults_false _), hl, hh]
    rfl
  · intro force
    rw [fss_unfold hcode hname rfl]
    cases hlat : latest_report_dt st.forecasts env.code with
    | none =>
        simp only [after_latest]
        rcases except_fallback_ok env st with ⟨u, hu⟩
        rw [hfb, hu]
        exact ⟨_, rfl⟩
    | some l =>
        simp only [after_latest]
        by_cases hc : ¬force ∧ is_fresh env.clk l 10
        · rw [if_pos hc, cache_eval hlat]
          exact ⟨_, rfl⟩
        · rw [if_neg hc]
          rcases except_fallback_ok env st with ⟨u, hu⟩
          rw [hfb, hu]
          exact ⟨_, rfl⟩

/-- C4 witness: a failing fetch with a prior snapshot serves that
snapshot as stale fallback, and with an empty store yields the empty
stale-fallback outcome. -/
theorem c4_fetch_failure_fallback_witness :
    fetch_branch ⟨"130000", "Tokyo", none, none, ⟨0, 0⟩, "NOWUTC", "NOWLOC"⟩
        ⟨[], [⟨"130000", "2024-05-01", "R1", some "晴れ", some 15, some 25⟩]⟩
        (.error .valueError) noFaults =
      .ok (⟨[], [⟨"130000", "2024-05-01", "R1", some "晴れ", some 15, some 25⟩]⟩,
        ⟨.staleFallback, some "R1",
          some (load_forecasts [⟨"130000", "2024-05-01", "R1", some "晴れ", some 15, some 25⟩]
            "130000" "R1" 6)⟩) ∧
    fetch_branch ⟨"130000", "Tokyo", none, none, ⟨0, 0⟩, "NOWUTC", "NOWLOC"⟩
        ⟨[], []⟩ (.error .valueError) noFaults =
      .ok (⟨[], []⟩, ⟨.staleFallback, none, none⟩) :=
  ⟨(c4_fetch_failure_fallback ⟨"130000", "Tokyo", none, none, ⟨0, 0⟩, "NOWUTC", "NOWLOC"⟩
      ⟨[], [⟨"130000", "2024-05-01", "R1", some "晴れ", some 15, some 25⟩]⟩
      .valueError (by decide) (by decide)).1 "R1" rfl,
    (c4_fetch_failure_fallback ⟨"130000", "Tokyo", none, none, ⟨0, 0⟩, "NOWUTC", "NOWLOC"⟩
      ⟨[], []⟩ .valueError (by decide) (by decide)).2.1 rfl⟩

/-- C9 counterexample: a storage error raised by `save_forecasts` occurs
inside the `try` block of `fetch_save_and_show`, is caught by the blanket
`except Exception` handler (kadai.py line 448) and converted into the
stale-fallback outcome — the call returns normally instead of propagating
the storage error.  (The store still carries the area upsert committed
before the failed save.) -/
theorem c9_counterexample :
    fetch_save_and_show ⟨"130000", "Tokyo", none, none, ⟨0, 0⟩, "NOWUTC", "NOWLOC"⟩
        ⟨[], []⟩ true
        (.ok (.arr [.obj [("reportDatetime", .str "2024-05-01T05:00:00+09:00"),
          ("timeSeries", .arr [
            .obj [("timeDefines", .arr [.str "2024-05-01T00:00:00+09:00"]),
                  ("areas", .arr [.obj [("weathers", .arr [.str "晴れ"])]])]])]]))
        (fun s => s == Site.saveF) =
      .ok (⟨[⟨"130000", "Tokyo", none, none, "NOWLOC"⟩], []⟩,
        some ⟨.staleFallback, none, none⟩) := rfl

/-- C9 (amended): only storage errors raised outside the fetch branch's
`try` block propagate — in particular, a storage error in the initial
`latest_report_dt` lookup (kadai.py line 418) always aborts the call with
the storage error; storage errors raised inside the `try` block (upsert,
save, history rebuild, render) are caught by the blanket handler and
converted into fallback behaviour, as the counterexample shows. -/
theorem c9_storage_error_amended (env : Env) (st : Store) (force : Bool)
    (fetch : Except PyErr Json) (f : Site → Bool)
    (hcode : env.code ≠ "") (hname : env.name ≠ "") (hf : f .latestPre = true) :
    fetch_save_and_show env st force fetch f = .error .storageError := by
  unfold fetch_save_and_show
  rw [if_neg (not_or.mpr ⟨hcode, hname⟩), if_pos hf]

/-- C9 witness: the pre-check lookup fault propagates at a concrete
input. -/
theorem c9_storage_error_witness :
    fetch_save_and_show ⟨"130000", "Tokyo", none, none, ⟨0, 0⟩, "NOWUTC", "NOWLOC"⟩
        ⟨[], []⟩ true (.ok .null) (fun s => s == Site.latestPre) =
      .error .storageError :=
  c9_storage_error_amended ⟨"130000", "Tokyo", none, none, ⟨0, 0⟩, "NOWUTC", "NOWLOC"⟩
    ⟨[], []⟩ true (.ok .null) (fun s => s == Site.latestPre)
    (by decide) (by decide) rfl
